import Mathlib

/-!
# comment_free: request routing, submission pipeline and JSON output

A shallow embedding of `src/backend/server/{utils,db,routes,http_server}.cpp`.

* A `std::string` is a list of bytes, each byte given by its unsigned value.
* Whether plain `char` is signed is implementation-defined in C++; the functions whose
  result depends on it take the flag `signedChar` (true on the x86 and x86-64 ABIs).
* The PostgreSQL tables are lists of rows; the clock, the file system and the random
  draws of the id generator are explicit inputs.
* Calling `front()` or `back()` on an empty string is undefined behaviour in C++; the
  functions that can do so return a `Fault`. The loop of `parse_multipart_form` runs on an
  iteration bound that it never exhausts (`parse_loop_ok`).

The definitions come first, then the lemmas, then one theorem per claim of the
specification (with the counterexample where the claim fails as stated).
-/

set_option autoImplicit false
set_option maxRecDepth 100000

namespace CommentFree

/-! ## Strings -/

/-- A `std::string`: its bytes in order, each as its unsigned value. -/
abbrev Str := List Nat

/-- UTF-8 encoding of a code point. -/
def utf8_encode (cp : Nat) : Str :=
  if cp < 128 then [cp]
  else if cp < 2048 then [192 + cp / 64, 128 + cp % 64]
  else if cp < 65536 then [224 + cp / 4096, 128 + cp / 64 % 64, 128 + cp % 64]
  else [240 + cp / 262144, 128 + cp / 4096 % 64, 128 + cp / 64 % 64, 128 + cp % 64]

/-- The bytes of a string literal of the source (the source files are UTF-8). -/
def lit (s : String) : Str := (s.data.map (fun ch => utf8_encode ch.toNat)).flatten

/-- The C++ literal `"\r\n"`. -/
def CRLF : Str := [13, 10]

/-- Model of `std::string::starts_with`. -/
def starts_with (s p : Str) : Bool := p.isPrefixOf s

/-- First index at which `needle` occurs in `hay`. -/
def find_at (needle : Str) : Str → Option Nat
  | [] => if needle = [] then some 0 else none
  | c :: hay =>
    if needle.isPrefixOf (c :: hay) then some 0 else (find_at needle hay).map (· + 1)

/-- Model of `hay.find(needle, pos)`; `none` is `std::string::npos`. -/
def find (hay needle : Str) (pos : Nat) : Option Nat :=
  if pos ≤ hay.length then (find_at needle (hay.drop pos)).map (· + pos) else none

/-- Model of `s.find_last_of(c)` and `s.rfind(c)` for a single character `c`: the last index of `c`. -/
def find_last_of (c : Nat) : Str → Option Nat
  | [] => none
  | x :: xs =>
    match find_last_of c xs with
    | some i => some (i + 1)
    | none => if x = c then some 0 else none

/-- Model of `s.find_first_not_of(set)`. -/
def find_first_not_of (set : Str) : Str → Option Nat
  | [] => none
  | x :: xs => if x ∈ set then (find_first_not_of set xs).map (· + 1) else some 0

/-- Model of `s.find_last_not_of(set)`. -/
def find_last_not_of (set : Str) : Str → Option Nat
  | [] => none
  | x :: xs =>
    match find_last_not_of set xs with
    | some i => some (i + 1)
    | none => if x ∈ set then none else some 0

/-- Model of `s.substr(pos, n)` for `pos ≤ s.size()` (every call in the source satisfies this). -/
def substr (s : Str) (pos n : Nat) : Str := (s.drop pos).take n

/-- Model of `s.substr(pos)` for `pos ≤ s.size()`. -/
def substr_from (s : Str) (pos : Nat) : Str := s.drop pos

/-- Model of `::tolower` in the "C" locale. -/
def tolower (c : Nat) : Nat := if 65 ≤ c ∧ c ≤ 90 then c + 32 else c

/-- Decimal digits of `n`, most significant first, given `fuel` digits at most. -/
def dec_digits : Nat → Nat → Str
  | 0, _ => []
  | fuel + 1, n => if n < 10 then [48 + n] else dec_digits fuel (n / 10) ++ [48 + n % 10]

/-- Model of `std::to_string` of a signed integer. -/
def to_string (v : Int) : Str :=
  if v < 0 then 45 :: dec_digits ((-v).toNat + 1) (-v).toNat
  else dec_digits (v.toNat + 1) v.toNat

/-- The value of a plain `char` holding the byte `c`, as an `int`. -/
def char_value (signedChar : Bool) (c : Nat) : Int :=
  if signedChar && decide (128 ≤ c) then (c : Int) - 256 else (c : Int)

/-- One lowercase hexadecimal digit. -/
def hex_digit (d : Nat) : Nat := if d < 10 then 48 + d else 87 + d

/-- Lowercase hexadecimal digits of `n`, most significant first, given `fuel` digits at most. -/
def hex_digits : Nat → Nat → Str
  | 0, _ => []
  | fuel + 1, n => if n < 16 then [hex_digit n] else hex_digits fuel (n / 16) ++ [hex_digit (n % 16)]

/-- What `oss << std::hex << std::setw(4) << std::setfill('0') << v` writes for an `int v`:
the 32-bit two's complement pattern of `v` in lowercase hexadecimal, padded on the left
with `0` to at least four characters. -/
def put_hex4 (v : Int) : Str :=
  let digits := hex_digits 8 (v % 4294967296).toNat
  List.replicate (4 - digits.length) 48 ++ digits

/-- Model of `std::string::replace(pos, n, t)` for `pos ≤ size()`. -/
def replace (s : Str) (pos n : Nat) (t : Str) : Str :=
  s.take pos ++ t ++ s.drop (pos + n)

/-! ## JsonUtils -/

/-- One iteration of the loop of `JsonUtils::escape_json_string`: append the escape of `c`. -/
def escape_step (signedChar : Bool) (output : Str) (c : Nat) : Str :=
  if c = 34 then output ++ [92, 34]
  else if c = 92 then output ++ [92, 92]
  else if c = 8 then output ++ [92, 98]
  else if c = 12 then output ++ [92, 102]
  else if c = 10 then output ++ [92, 110]
  else if c = 13 then output ++ [92, 114]
  else if c = 9 then output ++ [92, 116]
  else if char_value signedChar c < 32 then
    let output1 := (output ++ [92, 117]) ++ [48, 48, 48, 48]
    replace output1 (output1.length - 4) 4 (put_hex4 (char_value signedChar c))
  else output ++ [c]

/-- Model of `JsonUtils::escape_json_string`. -/
def escape_json_string (signedChar : Bool) (input : Str) : Str :=
  input.foldl (escape_step signedChar) []

/-- Model of `JsonUtils::create_error_response`. -/
def create_error_response (signedChar : Bool) (message : Str) : Str :=
  lit "\x7b\"status\":\"error\",\"message\":\"" ++ escape_json_string signedChar message
    ++ lit "\"\x7d"

/-- Model of `JsonUtils::create_success_response`. -/
def create_success_response (data : Str) : Str :=
  if data.isEmpty then lit "\x7b\"status\":\"success\"\x7d"
  else lit "\x7b\"status\":\"success\",\"data\":" ++ data ++ lit "\x7d"

/-! ## A JSON string decoder (RFC 8259, section 7) -/

/-- Value of a hexadecimal digit. -/
def hex_val (c : Nat) : Option Nat :=
  if 48 ≤ c ∧ c ≤ 57 then some (c - 48)
  else if 97 ≤ c ∧ c ≤ 102 then some (c - 87)
  else if 65 ≤ c ∧ c ≤ 70 then some (c - 55)
  else none

/-- Value of four hexadecimal digits. -/
def hex4_val (a b c d : Nat) : Option Nat :=
  match hex_val a, hex_val b, hex_val c, hex_val d with
  | some x, some y, some z, some w => some (x * 4096 + y * 256 + z * 16 + w)
  | _, _, _, _ => none

/-- Decoder for the characters of a JSON string after its opening quote: the decoded bytes
when the text is well formed and its closing quote is the last byte. Unescaped control
characters, unknown escapes and unpaired surrogates are rejected. -/
def json_string_body : Nat → Str → Option Str
  | 0, _ => none
  | _ + 1, [] => none
  | fuel + 1, c :: rest =>
    if c = 34 then (if rest = [] then some [] else none)
    else if c = 92 then
      match rest with
      | [] => none
      | e :: r =>
        if e = 34 ∨ e = 92 ∨ e = 47 then (json_string_body fuel r).map (e :: ·)
        else if e = 98 then (json_string_body fuel r).map (8 :: ·)
        else if e = 102 then (json_string_body fuel r).map (12 :: ·)
        else if e = 110 then (json_string_body fuel r).map (10 :: ·)
        else if e = 114 then (json_string_body fuel r).map (13 :: ·)
        else if e = 116 then (json_string_body fuel r).map (9 :: ·)
        else if e = 117 then
          match r with
          | a :: b :: c1 :: d :: r1 =>
            match hex4_val a b c1 d with
            | none => none
            | some hi =>
              if 55296 ≤ hi ∧ hi < 56320 then
                match r1 with
                | 92 :: 117 :: a2 :: b2 :: c2 :: d2 :: r2 =>
                  match hex4_val a2 b2 c2 d2 with
                  | none => none
                  | some lo =>
                    if 56320 ≤ lo ∧ lo < 57344 then
                      (json_string_body fuel r2).map
                        (utf8_encode (65536 + (hi - 55296) * 1024 + (lo - 56320)) ++ ·)
                    else none
                | _ => none
              else if 56320 ≤ hi ∧ hi < 57344 then none
              else (json_string_body fuel r1).map (utf8_encode hi ++ ·)
          | _ => none
        else none
    else if c < 32 then none
    else (json_string_body fuel rest).map (c :: ·)

/-- Decode a JSON string literal (opening quote, characters, closing quote). -/
def json_decode_string (text : Str) : Option Str :=
  match text with
  | 34 :: rest => json_string_body (rest.length + 1) rest
  | _ => none

/-- The JSON string literal the server emits for the value `s`. -/
def json_field (signedChar : Bool) (s : Str) : Str :=
  [34] ++ escape_json_string signedChar s ++ [34]

/-! ## IdGenerator, FileHandler, StringUtils (utils.cpp) -/

/-- Model of `IdGenerator::words`. -/
def words : List Str :=
  [lit "apple", lit "beach", lit "cloud", lit "dream", lit "eagle", lit "flame", lit "grace",
   lit "happy", lit "ideal", lit "joker", lit "knife", lit "light", lit "magic", lit "night",
   lit "ocean", lit "peace", lit "queen", lit "river", lit "smile", lit "tiger", lit "unity",
   lit "voice", lit "water", lit "xenon", lit "youth", lit "zebra", lit "brave", lit "clean",
   lit "dance", lit "earth", lit "fresh", lit "green", lit "heart", lit "inbox", lit "juice",
   lit "kind", lit "lucky", lit "money", lit "noble", lit "order", lit "piano", lit "quiet",
   lit "rapid", lit "sweet", lit "trust", lit "upper", lit "vital", lit "world"]

/-- The two draws `IdGenerator::generate` takes from its generator: `word_dist(0, words.size() - 1)`
and `num_dist(1, 999)`, each within the bounds of its distribution. -/
structure IdDraw where
  word_index : Nat
  number : Int
  word_index_lt : word_index < 48
  number_ge : 1 ≤ number
  number_le : number ≤ 999

/-- Model of `IdGenerator::generate`. -/
def generate (d : IdDraw) : Str :=
  let word := words.getD d.word_index []
  word ++ to_string d.number

/-- Model of `FileHandler::validate_image_format`. -/
def validate_image_format (filename : Str) : Bool :=
  let lower_filename := filename.map tolower
  let valid_extensions : List Str :=
    [lit ".jpg", lit ".jpeg", lit ".png", lit ".gif", lit ".bmp", lit ".webp"]
  valid_extensions.any (fun ext =>
    decide (lower_filename.length ≥ ext.length) &&
      decide (substr_from lower_filename (lower_filename.length - ext.length) = ext))

/-- What the file system and the clock do during one call of `save_uploaded_file`. -/
structure SaveOutcome where
  /-- result of `ensure_directory("uploads")` -/
  dir_ok : Bool
  /-- milliseconds since the epoch read from `system_clock` -/
  timestamp : Int
  /-- whether the `std::ofstream` on the computed path opened -/
  open_ok : Bool

/-- The path `FileHandler::save_uploaded_file` computes for `filename` at `timestamp`. -/
def upload_path (timestamp : Int) (filename : Str) : Str :=
  let file_extension :=
    match find_last_of 46 filename with
    | some dot_pos => substr_from filename dot_pos
    | none => []
  let new_filename := lit "img_" ++ to_string timestamp ++ file_extension
  lit "uploads/" ++ new_filename

/-- Model of `FileHandler::save_uploaded_file`: the stored path, or the empty string on failure. -/
def save_uploaded_file (o : SaveOutcome) (_content filename : Str) : Str :=
  if !o.dir_ok then []
  else
    let filepath := upload_path o.timestamp filename
    if !o.open_ok then [] else filepath

/-- Model of `StringUtils::trim`. -/
def trim (str : Str) : Str :=
  match find_first_not_of (lit " \t\r\n") str with
  | none => []
  | some start =>
    let end_ := (find_last_not_of (lit " \t\r\n") str).getD 0
    substr str start (end_ - start + 1)

/-- Model of `StringUtils::validate_content_length`. -/
def validate_content_length (content : Str) (min_length : Nat) : Bool :=
  decide ((trim content).length ≥ min_length)

/-! ## DatabaseManager (db.cpp) -/

/-- Model of `db::Post`. -/
structure Post where
  id : Str
  content : Str
  image_paths : List Str
  created_at : Str
  view_count : Int
  like_count : Int
deriving DecidableEq, Repr

/-- A row of table `posts`. -/
structure PostRow where
  id : Str
  content : Str
  created_at : Str
  view_count : Int
  like_count : Int
deriving DecidableEq, Repr

/-- A row of table `post_images`; the rows are kept in the order of their serial `id`. -/
structure ImageRow where
  post_id : Str
  path : Str
deriving DecidableEq, Repr

/-- The two tables created by `initialize_tables`. -/
structure Tables where
  posts : List PostRow
  post_images : List ImageRow
deriving DecidableEq, Repr

/-- The manager with its connection: `none` when there is no open connection. -/
structure DatabaseManager where
  conn : Option Tables
deriving DecidableEq, Repr

/-- Model of `DatabaseManager::is_connected`. -/
def is_connected (dm : DatabaseManager) : Bool := dm.conn.isSome

/-- Largest value of a PostgreSQL `INTEGER`. -/
def INT_MAX : Int := 2147483647

/-- The transaction of `save_post`: one row into `posts` (`id VARCHAR(16) PRIMARY KEY`, the
counters at their default 0, `created_at` at `NOW()`), then one row into `post_images` per
path. `none` when a statement fails, which leaves the tables as they were. -/
def insert_post (t : Tables) (now : Str) (post : Post) : Option Tables :=
  if post.id.length > 16 then none
  else if post.id ∈ t.posts.map PostRow.id then none
  else some
    { posts := t.posts ++ [⟨post.id, post.content, now, 0, 0⟩]
      post_images := t.post_images ++ post.image_paths.map (fun image_path => ⟨post.id, image_path⟩) }

/-- Model of `DatabaseManager::save_post`. -/
def save_post (dm : DatabaseManager) (now : Str) (post : Post) : Bool × DatabaseManager :=
  match dm.conn with
  | none => (false, dm)
  | some t =>
    match insert_post t now post with
    | none => (false, dm)
    | some t1 => (true, ⟨some t1⟩)

/-- Model of `DatabaseManager::get_post`. -/
def get_post (dm : DatabaseManager) (id : Str) : Option Post :=
  match dm.conn with
  | none => none
  | some t =>
    match t.posts.filter (fun r => r.id = id) with
    | [] => none
    | row :: _ =>
      some
        { id := row.id
          content := row.content
          created_at := row.created_at
          view_count := row.view_count
          like_count := row.like_count
          image_paths := (t.post_images.filter (fun r => r.post_id = id)).map ImageRow.path }

/-- The statement `UPDATE posts SET view_count = COALESCE(view_count, 0) + 1 WHERE id = $1`: the rows
afterwards with the number of affected rows, `none` when the statement fails (an `INTEGER`
out of range). -/
def update_view_count : List PostRow → Str → Option (List PostRow × Nat)
  | [], _ => some ([], 0)
  | r :: rs, id =>
    if r.id = id then
      if r.view_count + 1 > INT_MAX then none
      else (update_view_count rs id).map
        (fun x => ({ r with view_count := r.view_count + 1 } :: x.1, x.2 + 1))
    else (update_view_count rs id).map (fun x => (r :: x.1, x.2))

/-- The statement `UPDATE posts SET like_count = COALESCE(like_count, 0) + 1 WHERE id = $1`. -/
def update_like_count : List PostRow → Str → Option (List PostRow × Nat)
  | [], _ => some ([], 0)
  | r :: rs, id =>
    if r.id = id then
      if r.like_count + 1 > INT_MAX then none
      else (update_like_count rs id).map
        (fun x => ({ r with like_count := r.like_count + 1 } :: x.1, x.2 + 1))
    else (update_like_count rs id).map (fun x => (r :: x.1, x.2))

/-- Model of `DatabaseManager::increment_view_count`. -/
def increment_view_count (dm : DatabaseManager) (id : Str) : Bool × DatabaseManager :=
  match dm.conn with
  | none => (false, dm)
  | some t =>
    match update_view_count t.posts id with
    | none => (false, dm)
    | some (rows, affected) => (decide (affected > 0), ⟨some { t with posts := rows }⟩)

/-- Model of `DatabaseManager::increment_like_count`. -/
def increment_like_count (dm : DatabaseManager) (id : Str) : Bool × DatabaseManager :=
  match dm.conn with
  | none => (false, dm)
  | some t =>
    match update_like_count t.posts id with
    | none => (false, dm)
    | some (rows, affected) => (decide (affected > 0), ⟨some { t with posts := rows }⟩)

/-! ## mime_type (http_server.cpp) -/

/-- Model of `beast::iequals`: equality up to ASCII case. -/
def iequals (a b : Str) : Bool := decide (a.map tolower = b.map tolower)

/-- Model of `server::mime_type`. -/
def mime_type (path : Str) : Str :=
  let ext :=
    match find_last_of 46 path with
    | none => []
    | some pos => substr_from path pos
  if iequals ext (lit ".htm") then lit "text/html"
  else if iequals ext (lit ".html") then lit "text/html"
  else if iequals ext (lit ".php") then lit "text/html"
  else if iequals ext (lit ".css") then lit "text/css"
  else if iequals ext (lit ".txt") then lit "text/plain"
  else if iequals ext (lit ".js") then lit "application/javascript"
  else if iequals ext (lit ".json") then lit "application/json"
  else if iequals ext (lit ".xml") then lit "application/xml"
  else if iequals ext (lit ".swf") then lit "application/x-shockwave-flash"
  else if iequals ext (lit ".flv") then lit "video/x-flv"
  else if iequals ext (lit ".png") then lit "image/png"
  else if iequals ext (lit ".jpe") then lit "image/jpeg"
  else if iequals ext (lit ".jpeg") then lit "image/jpeg"
  else if iequals ext (lit ".jpg") then lit "image/jpeg"
  else if iequals ext (lit ".gif") then lit "image/gif"
  else if iequals ext (lit ".bmp") then lit "image/bmp"
  else if iequals ext (lit ".ico") then lit "image/vnd.microsoft.icon"
  else if iequals ext (lit ".tiff") then lit "image/tiff"
  else if iequals ext (lit ".tif") then lit "image/tiff"
  else if iequals ext (lit ".svg") then lit "image/svg+xml"
  else if iequals ext (lit ".svgz") then lit "image/svg+xml"
  else lit "application/text"

/-! ## RouteHandler (routes.cpp) -/

/-- Model of `boost::beast::http::verb`. -/
inductive Verb where
  | unknown | delete_ | get | head | post | put | connect | options | trace
  | copy | lock | mkcol | move | propfind | proppatch | search | unlock | bind | rebind
  | unbind | acl | report | mkactivity | checkout | merge | msearch | notify | subscribe
  | unsubscribe | patch | purge | mkcalendar | link | unlink
deriving DecidableEq, Repr

/-- The parts of an `http::request<http::string_body>` the handlers read. -/
structure Request where
  method : Verb
  target : Str
  /-- value of `req[http::field::content_type]`, empty when the header is absent -/
  content_type : Str
  body : Str
deriving DecidableEq, Repr

/-- An `http::response<http::string_body>`: status, the headers set by the handlers, body. -/
structure Response where
  status : Nat
  server : Str
  content_type : Str
  body : Str
  access_control_allow_origin : Str
  access_control_allow_methods : Str
  access_control_allow_headers : Str
deriving DecidableEq, Repr

/-- A response with the `Server` header and the headers of `add_cors_headers`. -/
def mk_response (status : Nat) (content_type body : Str) : Response :=
  { status := status
    server := lit "CommentFree/1.0"
    content_type := content_type
    body := body
    access_control_allow_origin := lit "*"
    access_control_allow_methods := lit "GET, POST, OPTIONS"
    access_control_allow_headers := lit "Content-Type" }

/-- Model of `RouteHandler::bad_request`. -/
def bad_request (signedChar : Bool) (why : Str) : Response :=
  mk_response 400 (lit "application/json") (create_error_response signedChar why)

/-- Model of `RouteHandler::not_found`. -/
def not_found (signedChar : Bool) (target : Str) : Response :=
  mk_response 404 (lit "application/json")
    (create_error_response signedChar (lit "资源不存在: " ++ target))

/-- Model of `RouteHandler::server_error`. -/
def server_error (signedChar : Bool) (what : Str) : Response :=
  mk_response 500 (lit "application/json") (create_error_response signedChar what)

/-- Model of `RouteHandler::ok_response` with its default content type. -/
def ok_response (content : Str) : Response :=
  mk_response 200 (lit "application/json") content

/-- Model of `RouteHandler::extract_post_id_from_path`. -/
def extract_post_id_from_path (path : Str) : Str :=
  match find_last_of 47 path with
  | some last_slash => if last_slash < path.length - 1 then substr_from path (last_slash + 1) else []
  | none => []

/-- The variables `content`, `image_files` of `parse_multipart_form`, and the number of
calls of `save_uploaded_file` made so far. -/
structure ParseState where
  content : Str
  image_files : List Str
  saves : Nat
deriving DecidableEq, Repr

/-- The body of the loop of `parse_multipart_form` after `part` has been cut out; `fs k` is
what the file system and the clock do at call number `k` of `save_uploaded_file`. -/
def parse_part (fs : Nat → SaveOutcome) (part : Str) (st : ParseState) : ParseState :=
  match find part (lit "\r\n\r\n") 0 with
  | none => st
  | some header_end =>
    let headers := substr part 0 header_end
    let part_content0 := substr_from part (header_end + 4)
    let part_content :=
      if part_content0.length ≥ 2 ∧ substr_from part_content0 (part_content0.length - 2) = CRLF
      then substr part_content0 0 (part_content0.length - 2)
      else part_content0
    if (find headers (lit "name=\"content\"") 0).isSome then
      { st with content := part_content }
    else if (find headers (lit "name=\"images\"") 0).isSome
        && (find headers (lit "filename=") 0).isSome then
      match find headers (lit "filename=\"") 0 with
      | none => st
      | some filename_pos0 =>
        let filename_pos := filename_pos0 + 10
        match find headers (lit "\"") filename_pos with
        | none => st
        | some filename_end =>
          let filename := substr headers filename_pos (filename_end - filename_pos)
          if validate_image_format filename then
            let saved_path := save_uploaded_file (fs st.saves) part_content filename
            { st with
              image_files :=
                if saved_path ≠ [] then st.image_files ++ [saved_path] else st.image_files
              saves := st.saves + 1 }
          else st
    else st

/-- Faults of the model: source behaviour that C++ leaves undefined, and a loop of the
model stopped by its iteration bound. -/
inductive Fault where
  | undefined_behaviour
  | out_of_fuel
deriving DecidableEq, Repr

deriving instance DecidableEq for Except

/-- The `while (pos < body.length())` loop of `parse_multipart_form`, at most `fuel`
iterations. -/
def parse_loop (fs : Nat → SaveOutcome) (body delimiter : Str) :
    Nat → Nat → ParseState → Except Fault ParseState
  | 0, pos, st => if pos < body.length then .error .out_of_fuel else .ok st
  | fuel + 1, pos, st =>
    if pos < body.length then
      match find body delimiter pos with
      | none => .ok st
      | some start0 =>
        let start := start0 + delimiter.length
        let end_ := (find body delimiter start).getD body.length
        let part := substr body start (end_ - start)
        parse_loop fs body delimiter fuel end_ (parse_part fs part st)
    else .ok st

/-- Model of `RouteHandler::parse_multipart_form`: the returned flag and the final values of the
output parameters, which enter as `st`. -/
def parse_multipart_form (fs : Nat → SaveOutcome) (body boundary : Str) (st : ParseState) :
    Except Fault (Bool × ParseState) :=
  let delimiter := lit "--" ++ boundary
  match parse_loop fs body delimiter body.length 0 st with
  | .error e => .error e
  | .ok st1 => .ok (!st1.content.isEmpty, st1)

/-- The boundary computed at the start of `handle_api_submit`. It is undefined behaviour to
call `front()` or `back()` on an empty string. -/
def extract_boundary (content_type : Str) : Except Fault Str :=
  match find content_type (lit "boundary=") 0 with
  | none => .ok []
  | some boundary_pos =>
    let boundary := substr_from content_type (boundary_pos + 9)
    if boundary = [] then .error .undefined_behaviour
    else
      let boundary1 := if boundary.head? = some 34 then boundary.drop 1 else boundary
      if boundary1 = [] then .error .undefined_behaviour
      else .ok (if boundary1.getLast? = some 34 then boundary1.dropLast else boundary1)

/-- What the handlers read from outside the request: the behaviour of the file system and
the clock at each call of `save_uploaded_file`, the draws of a fresh `IdGenerator`, the
value of `NOW()` in the database, and the files `std::ifstream` can open with their
contents. -/
structure Env where
  fs : Nat → SaveOutcome
  draw : IdDraw
  now : Str
  read_file : Str → Option Str

/-- A response with the effects of computing it: the database afterwards, the number of
calls of `save_uploaded_file`, and the posts handed to `save_post`. -/
structure Outcome where
  response : Response
  db : DatabaseManager
  saves : Nat
  save_post_calls : List Post
deriving DecidableEq, Repr

/-- Model of `RouteHandler::handle_api_submit`. -/
def handle_api_submit (signedChar : Bool) (env : Env) (dm : DatabaseManager) (req : Request) :
    Except Fault Outcome :=
  match extract_boundary req.content_type with
  | .error e => .error e
  | .ok boundary =>
    if boundary.isEmpty then
      .ok ⟨bad_request signedChar (lit "缺少multipart boundary"), dm, 0, []⟩
    else
      match parse_multipart_form env.fs req.body boundary ⟨[], [], 0⟩ with
      | .error e => .error e
      | .ok (parsed, st) =>
        if !parsed then
          .ok ⟨bad_request signedChar (lit "解析表单数据失败"), dm, st.saves, []⟩
        else if !validate_content_length st.content 50 then
          .ok ⟨bad_request signedChar (lit "评论内容不能少于50字"), dm, st.saves, []⟩
        else if st.image_files.length > 9 then
          .ok ⟨bad_request signedChar (lit "最多只能上传9张图片"), dm, st.saves, []⟩
        else
          let post_id := generate env.draw
          let post : Post :=
            { id := post_id, content := st.content, image_paths := st.image_files,
              created_at := [], view_count := 0, like_count := 0 }
          let saved := save_post dm env.now post
          if !saved.1 then
            .ok ⟨server_error signedChar (lit "保存评论失败"), saved.2, st.saves, [post]⟩
          else
            let response_data := lit "\x7b\"id\":\"" ++ post_id ++ lit "\"\x7d"
            .ok ⟨ok_response (create_success_response response_data), saved.2, st.saves, [post]⟩

/-- The `images` array written by the loop of `handle_api_view`, without its brackets. -/
def images_json (signedChar : Bool) (image_paths : List Str) : Str :=
  (image_paths.enum.map (fun x =>
    (if x.1 > 0 then lit "," else []) ++ lit "\"" ++ escape_json_string signedChar x.2
      ++ lit "\"")).flatten

/-- The text `json_data.str()` of `handle_api_view`. -/
def post_json (signedChar : Bool) (post : Post) : Str :=
  lit "\x7b" ++ lit "\"id\":\"" ++ escape_json_string signedChar post.id ++ lit "\","
    ++ lit "\"content\":\"" ++ escape_json_string signedChar post.content ++ lit "\","
    ++ lit "\"created_at\":\"" ++ escape_json_string signedChar post.created_at ++ lit "\","
    ++ lit "\"view_count\":" ++ to_string post.view_count ++ lit ","
    ++ lit "\"like_count\":" ++ to_string post.like_count ++ lit ","
    ++ lit "\"images\":[" ++ images_json signedChar post.image_paths ++ lit "]\x7d"

/-- Model of `RouteHandler::handle_api_view`. -/
def handle_api_view (signedChar : Bool) (dm : DatabaseManager) (id : Str) : Outcome :=
  if id.isEmpty then ⟨bad_request signedChar (lit "评论ID不能为空"), dm, 0, []⟩
  else
    let dm1 := (increment_view_count dm id).2
    match get_post dm1 id with
    | none => ⟨not_found signedChar (lit "评论不存在"), dm1, 0, []⟩
    | some post =>
      ⟨ok_response (create_success_response (post_json signedChar post)), dm1, 0, []⟩

/-- Model of `RouteHandler::handle_api_like`. -/
def handle_api_like (signedChar : Bool) (dm : DatabaseManager) (id : Str) : Outcome :=
  if id.isEmpty then ⟨bad_request signedChar (lit "评论ID不能为空"), dm, 0, []⟩
  else
    let liked := increment_like_count dm id
    if !liked.1 then ⟨not_found signedChar (lit "评论不存在"), liked.2, 0, []⟩
    else ⟨ok_response (create_success_response []), liked.2, 0, []⟩

/-- The file path `RouteHandler::serve_file` opens for `path`. It is undefined behaviour
to call `front()` on an empty string. -/
def serve_file_path (path : Str) : Except Fault (Str × Str) :=
  let target := if path = lit "/" then lit "/index.html" else path
  if target = [] then .error .undefined_behaviour
  else
    let target1 := if target.head? = some 47 then target.drop 1 else target
    let full_path := if starts_with target1 (lit "uploads/") then target1
      else lit "frontend/" ++ target1
    .ok (target1, full_path)

/-- Model of `RouteHandler::serve_file`. -/
def serve_file (signedChar : Bool) (env : Env) (dm : DatabaseManager) (path : Str) :
    Except Fault Outcome :=
  match serve_file_path path with
  | .error e => .error e
  | .ok (target, full_path) =>
    match env.read_file full_path with
    | none => .ok ⟨not_found signedChar target, dm, 0, []⟩
    | some content => .ok ⟨mk_response 200 (mime_type full_path) content, dm, 0, []⟩

/-- Model of `RouteHandler::handle_request`; the parameter `doc_root` is not read by the source. -/
def handle_request (signedChar : Bool) (env : Env) (dm : DatabaseManager) (req : Request)
    (_doc_root : Str) : Except Fault Outcome :=
  let target := req.target
  let method := req.method
  if starts_with target (lit "/api/") then
    if target = lit "/api/submit" ∧ method = Verb.post then
      handle_api_submit signedChar env dm req
    else if starts_with target (lit "/api/view/") ∧ method = Verb.get then
      let id := extract_post_id_from_path target
      .ok (handle_api_view signedChar dm id)
    else if starts_with target (lit "/api/like/") ∧ method = Verb.post then
      let id := extract_post_id_from_path target
      .ok (handle_api_like signedChar dm id)
    else .ok ⟨not_found signedChar target, dm, 0, []⟩
  else serve_file signedChar env dm target

/-! ## Auxiliary definitions of the proofs -/

/-- The text appended for one input byte. -/
def escape_char (signedChar : Bool) (c : Nat) : Str := escape_step signedChar [] c

/-- An id has no row: there is no connection, or no row of `posts` carries it. -/
def no_row (dm : DatabaseManager) (id : Str) : Prop :=
  ∀ t, dm.conn = some t → id ∉ t.posts.map PostRow.id

/-- A sample environment: every file write succeeds at timestamp `1700000000000 + k`, the id
generator draws `tiger42`, and no static file exists. -/
def demo_env : Env :=
  { fs := fun k => ⟨true, 1700000000000 + k, true⟩
    draw := ⟨19, 42, by decide, by decide, by decide⟩
    now := lit "2024-01-01 00:00:00"
    read_file := fun _ => none }

/-- A row after `like_count = like_count + 1 WHERE id = $1`. -/
def bump_like (id : Str) (r : PostRow) : PostRow :=
  if r.id = id then { r with like_count := r.like_count + 1 } else r

/-- A row after `view_count = view_count + 1 WHERE id = $1`. -/
def bump_view (id : Str) (r : PostRow) : PostRow :=
  if r.id = id then { r with view_count := r.view_count + 1 } else r

/-- The post read from a row and the paths of its image rows, as `get_post` builds it. -/
def post_of_row (row : PostRow) (image_paths : List Str) : Post :=
  { id := row.id, content := row.content, created_at := row.created_at,
    view_count := row.view_count, like_count := row.like_count, image_paths := image_paths }

/-- A sample store: one post `tiger42` with one image, viewed 7 times and never liked, and
one post `apple1`. -/
def demo_tables : Tables :=
  { posts := [⟨lit "apple1", lit "first", lit "2024-01-01", 3, 4⟩,
              ⟨lit "tiger42", lit "second", lit "2024-01-02", 7, 0⟩]
    post_images := [⟨lit "tiger42", lit "uploads/img_1.png"⟩] }

/-- The post `handle_api_submit` builds from the parsed form and the drawn id. -/
def submitted_post (env : Env) (st : ParseState) : Post :=
  { id := generate env.draw, content := st.content, image_paths := st.image_files,
    created_at := [], view_count := 0, like_count := 0 }

/-- The part of a `multipart/form-data` body that carries the text field `content`. -/
def content_part (boundary text : Str) : Str :=
  lit "--" ++ boundary ++ CRLF
    ++ lit "Content-Disposition: form-data; name=\"content\"" ++ CRLF ++ CRLF
    ++ text ++ CRLF

/-- The part of a `multipart/form-data` body that carries one file of the field `images`. -/
def image_part (boundary filename data : Str) : Str :=
  lit "--" ++ boundary ++ CRLF
    ++ lit "Content-Disposition: form-data; name=\"images\"; filename=\"" ++ filename
    ++ lit "\"" ++ CRLF
    ++ lit "Content-Type: application/octet-stream" ++ CRLF ++ CRLF
    ++ data ++ CRLF

/-- A well-formed `multipart/form-data` body: the `content` field, the image files in
order (file name, bytes), and the closing delimiter. -/
def multipart_body (boundary text : Str) (images : List (Str × Str)) : Str :=
  content_part boundary text
    ++ (images.map (fun f => image_part boundary f.1 f.2)).flatten
    ++ (lit "--" ++ boundary ++ lit "--" ++ CRLF)

/-- The submit request a client sends for a text and a list of image files. -/
def submit_request (boundary text : Str) (images : List (Str × Str)) : Request :=
  { method := Verb.post
    target := lit "/api/submit"
    content_type := lit "multipart/form-data; boundary=" ++ boundary
    body := multipart_body boundary text images }

/-- What `parse_part` does once `headers` and the text after the blank line are cut out. -/
def part_effect (fs : Nat → SaveOutcome) (headers part_content0 : Str) (st : ParseState) :
    ParseState :=
  let part_content :=
    if part_content0.length ≥ 2 ∧ substr_from part_content0 (part_content0.length - 2) = CRLF
    then substr part_content0 0 (part_content0.length - 2)
    else part_content0
  if (find headers (lit "name=\"content\"") 0).isSome then
    { st with content := part_content }
  else if (find headers (lit "name=\"images\"") 0).isSome
      && (find headers (lit "filename=") 0).isSome then
    match find headers (lit "filename=\"") 0 with
    | none => st
    | some filename_pos0 =>
      let filename_pos := filename_pos0 + 10
      match find headers (lit "\"") filename_pos with
      | none => st
      | some filename_end =>
        let filename := substr headers filename_pos (filename_end - filename_pos)
        if validate_image_format filename then
          let saved_path := save_uploaded_file (fs st.saves) part_content filename
          { st with
            image_files :=
              if saved_path ≠ [] then st.image_files ++ [saved_path] else st.image_files
            saves := st.saves + 1 }
        else st
  else st

/-- The text between two delimiters for the field `content`. -/
def content_region (text : Str) : Str :=
  CRLF ++ lit "Content-Disposition: form-data; name=\"content\"" ++ CRLF ++ CRLF ++ text ++ CRLF

/-- The text between two delimiters for one file of the field `images`. -/
def image_region (filename data : Str) : Str :=
  CRLF ++ lit "Content-Disposition: form-data; name=\"images\"; filename=\"" ++ filename
    ++ lit "\"" ++ CRLF ++ lit "Content-Type: application/octet-stream" ++ CRLF ++ CRLF
    ++ data ++ CRLF

/-- The text after the closing delimiter. -/
def closing_region : Str := lit "--" ++ CRLF

/-- The extensions `validate_image_format` accepts. -/
def valid_extensions : List Str :=
  [lit ".jpg", lit ".jpeg", lit ".png", lit ".gif", lit ".bmp", lit ".webp"]

/-- The number written by a string of decimal digits. -/
def dec_value (digits : Str) : Nat := digits.foldl (fun acc c => 10 * acc + (c - 48)) 0

/-- The extension `save_uploaded_file` keeps: the file name from its last dot on, empty when
it has no dot. -/
def file_extension (filename : Str) : Str :=
  match find_last_of 46 filename with
  | some dot_pos => substr_from filename dot_pos
  | none => []

/-- The parts that the loop of `parse_multipart_form` cuts out of `body`, in order. -/
def loop_parts (body delimiter : Str) : Nat → Nat → List Str
  | 0, _ => []
  | fuel + 1, pos =>
    if pos < body.length then
      match find body delimiter pos with
      | none => []
      | some start0 =>
        let start := start0 + delimiter.length
        let end_ := (find body delimiter start).getD body.length
        substr body start (end_ - start) :: loop_parts body delimiter fuel end_
    else []

/-- What a part assigns to `content`: its body without one trailing CRLF when its headers
contain `name="content"`, nothing when they do not or when the part has no blank line. -/
def content_field (part : Str) : Option Str :=
  match find part (lit "\r\n\r\n") 0 with
  | none => none
  | some header_end =>
    let headers := substr part 0 header_end
    let part_content0 := substr_from part (header_end + 4)
    let part_content :=
      if part_content0.length ≥ 2 ∧ substr_from part_content0 (part_content0.length - 2) = CRLF
      then substr part_content0 0 (part_content0.length - 2)
      else part_content0
    if (find headers (lit "name=\"content\"") 0).isSome then some part_content else none

/-- The body of a submission with the field `content` only, as a client writes it. -/
def content_only_body (b t : Str) : Str :=
  lit "--" ++ b ++ CRLF ++ lit "Content-Disposition: form-data; name=\"content\"" ++ CRLF
    ++ CRLF ++ t ++ CRLF ++ lit "--" ++ b ++ lit "--" ++ CRLF

/-- The segments of a path: the texts between its slashes. -/
def split_slash : Str → List Str
  | [] => [[]]
  | c :: s =>
    if c = 47 then [] :: split_slash s
    else
      match split_slash s with
      | seg :: rest => (c :: seg) :: rest
      | [] => [[c]]

/-- The values `start` and `end` computed by one iteration of the loop of
`parse_multipart_form` entered at `pos`; `none` when the iteration leaves the loop by
`break`. The iteration ends with `pos = end`. -/
def loop_cut (body delimiter : Str) (pos : Nat) : Option (Nat × Nat) :=
  match find body delimiter pos with
  | none => none
  | some start0 =>
    some (start0 + delimiter.length,
      (find body delimiter (start0 + delimiter.length)).getD body.length)

/-- The number of times the body of the loop is entered from `pos`, the iteration that
leaves by `break` included, counting no more than `bound` of them. -/
def loop_iterations (body delimiter : Str) : Nat → Nat → Nat
  | 0, _ => 0
  | bound + 1, pos =>
    if pos < body.length then
      match loop_cut body delimiter pos with
      | none => 1
      | some cut => 1 + loop_iterations body delimiter bound cut.2
    else 0

/-- A sample environment in which the file of a stored upload can be opened. -/
def demo_env_upload : Env :=
  { fs := fun k => ⟨true, 1700000000123 + k, true⟩
    draw := ⟨19, 42, by decide, by decide, by decide⟩
    now := lit "2024-01-01 00:00:00"
    read_file := fun p =>
      if p = lit "uploads/img_1700000000123.webp" then some (lit "RIFF") else none }

/-- ASCII lowercasing as the claim words it, written without reference to the code: each
of the 26 capital letters is replaced by the small letter at the same place of the
alphabet, and every other byte is kept. -/
def ascii_lower (c : Nat) : Nat :=
  (((lit "ABCDEFGHIJKLMNOPQRSTUVWXYZ").zip (lit "abcdefghijklmnopqrstuvwxyz")).lookup c).getD c

/-! ## Escaping: auxiliary facts -/

theorem replace_tail (a t h : Str) (n : Nat) (hn : t.length = n) :
    replace (a ++ t) ((a ++ t).length - n) n h = a ++ h := by
  have h1 : (a ++ t).length - n = a.length := by simp [hn]
  have h2 : List.drop (a.length + n) (a ++ t) = [] := by
    apply List.drop_eq_nil_of_le
    simp [hn]
  unfold replace
  rw [h1, List.take_left, h2, List.append_nil]

theorem escape_step_append (sc : Bool) (out : Str) (c : Nat) :
    escape_step sc out c = out ++ escape_char sc c := by
  unfold escape_char escape_step
  by_cases h1 : c = 34
  · simp [h1]
  by_cases h2 : c = 92
  · simp [h2]
  by_cases h3 : c = 8
  · simp [h3]
  by_cases h4 : c = 12
  · simp [h4]
  by_cases h5 : c = 10
  · simp [h5]
  by_cases h6 : c = 13
  · simp [h6]
  by_cases h7 : c = 9
  · simp [h7]
  simp only [h1, h2, h3, h4, h5, h6, h7, if_false]
  by_cases h8 : char_value sc c < 32
  · simp only [h8, if_true]
    rw [replace_tail (out ++ [92, 117]) [48, 48, 48, 48] _ 4 rfl,
      replace_tail ([] ++ [92, 117]) [48, 48, 48, 48] _ 4 rfl]
    simp
  · simp [h8]

theorem foldl_escape_step (sc : Bool) (s out : Str) :
    s.foldl (escape_step sc) out = out ++ (s.map (escape_char sc)).flatten := by
  induction s generalizing out with
  | nil => simp
  | cons c s ih => simp [List.foldl_cons, ih, escape_step_append]

theorem escape_json_string_eq (sc : Bool) (s : Str) :
    escape_json_string sc s = (s.map (escape_char sc)).flatten := by
  simp [escape_json_string, foldl_escape_step]

theorem escape_json_string_append (sc : Bool) (s t : Str) :
    escape_json_string sc (s ++ t) = escape_json_string sc s ++ escape_json_string sc t := by
  simp [escape_json_string_eq]

theorem escape_char_quote (sc : Bool) : escape_char sc 34 = [92, 34] := by
  simp [escape_char, escape_step]

theorem update_view_count_absent (rows : List PostRow) (id : Str)
    (h : id ∉ rows.map PostRow.id) : update_view_count rows id = some (rows, 0) := by
  induction rows with
  | nil => rfl
  | cons r rs ih =>
    simp only [List.map_cons, List.mem_cons, not_or] at h
    have hne : ¬ r.id = id := fun e => h.1 e.symm
    simp [update_view_count, hne, ih h.2]

theorem update_like_count_absent (rows : List PostRow) (id : Str)
    (h : id ∉ rows.map PostRow.id) : update_like_count rows id = some (rows, 0) := by
  induction rows with
  | nil => rfl
  | cons r rs ih =>
    simp only [List.map_cons, List.mem_cons, not_or] at h
    have hne : ¬ r.id = id := fun e => h.1 e.symm
    simp [update_like_count, hne, ih h.2]

theorem filter_id_absent (rows : List PostRow) (id : Str)
    (h : id ∉ rows.map PostRow.id) : rows.filter (fun r => r.id = id) = [] := by
  rw [List.filter_eq_nil_iff]
  intro r hr
  simp only [decide_eq_true_eq]
  intro e
  exact h (by rw [← e]; exact List.mem_map_of_mem _ hr)

theorem increment_view_count_no_row (dm : DatabaseManager) (id : Str) (h : no_row dm id) :
    increment_view_count dm id = (false, dm) := by
  unfold increment_view_count
  rcases dm with ⟨_ | t⟩
  · rfl
  · simp [update_view_count_absent t.posts id (h t rfl)]

theorem increment_like_count_no_row (dm : DatabaseManager) (id : Str) (h : no_row dm id) :
    increment_like_count dm id = (false, dm) := by
  unfold increment_like_count
  rcases dm with ⟨_ | t⟩
  · rfl
  · simp [update_like_count_absent t.posts id (h t rfl)]

theorem get_post_no_row (dm : DatabaseManager) (id : Str) (h : no_row dm id) :
    get_post dm id = none := by
  unfold get_post
  rcases dm with ⟨_ | t⟩
  · rfl
  · simp [filter_id_absent t.posts id (h t rfl)]

/-! ### The id cut out of a target -/

theorem find_last_of_lt (c : Nat) (s : Str) (i : Nat) (h : find_last_of c s = some i) :
    i < s.length := by
  induction s generalizing i with
  | nil => simp [find_last_of] at h
  | cons x xs ih =>
    unfold find_last_of at h
    cases hx : find_last_of c xs with
    | some j =>
      rw [hx] at h
      simp only [Option.some.injEq] at h
      have := ih j hx
      simp only [List.length_cons]
      omega
    | none =>
      rw [hx] at h
      simp only at h
      split at h
      · simp only [Option.some.injEq] at h
        simp only [List.length_cons]
        omega
      · simp at h

theorem find_last_of_isSome_of_mem (c : Nat) (s : Str) (h : c ∈ s) :
    (find_last_of c s).isSome = true := by
  induction s with
  | nil => simp at h
  | cons x xs ih =>
    unfold find_last_of
    cases hx : find_last_of c xs with
    | some j => rfl
    | none =>
      rcases List.mem_cons.mp h with e | e
      · simp [e]
      · have := ih e
        rw [hx] at this
        simp at this

theorem find_last_of_append_singleton (c x : Nat) (s : Str) :
    find_last_of c (s ++ [x]) = if x = c then some s.length else find_last_of c s := by
  induction s with
  | nil => simp [find_last_of]
  | cons y ys ih =>
    rw [List.cons_append, find_last_of, ih, find_last_of, List.length_cons]
    by_cases hx : x = c
    · simp [hx]
    · simp [hx]

/-- The id cut out of a target is empty exactly when the target ends with a slash, for
targets that contain a slash. -/
theorem extract_post_id_eq_nil_iff (path : Str) (h : 47 ∈ path) :
    extract_post_id_from_path path = [] ↔ path.getLast? = some 47 := by
  rcases List.eq_nil_or_concat path with rfl | ⟨s, x, rfl⟩
  · simp at h
  · unfold extract_post_id_from_path
    rw [List.concat_eq_append] at *
    rw [find_last_of_append_singleton]
    by_cases hx : x = 47
    · simp [hx]
    · have hs : 47 ∈ s := by
        rcases List.mem_append.mp h with e | e
        · exact e
        · simp at e; exact absurd e.symm hx
      have hsome := find_last_of_isSome_of_mem 47 s hs
      cases hf : find_last_of 47 s with
      | none => rw [hf] at hsome; simp at hsome
      | some i =>
        have hi := find_last_of_lt 47 s i hf
        have hlt : i < (s ++ [x]).length - 1 := by simp; exact hi
        simp only [hx, if_false, hlt, if_true, substr_from]
        constructor
        · intro e
          have := congrArg List.length e
          simp at this
          omega
        · intro e
          simp at e
          exact absurd e hx

theorem mem_of_starts_with_api (target : Str) (p : Str) (hp : 47 ∈ p)
    (h : starts_with target p = true) : 47 ∈ target := by
  unfold starts_with at h
  rw [List.isPrefixOf_iff_prefix] at h
  exact h.subset hp

/-! ### Counter updates and reading a post back -/

theorem bump_like_id (id : Str) (r : PostRow) : (bump_like id r).id = r.id := by
  unfold bump_like; split <;> rfl

theorem bump_view_id (id : Str) (r : PostRow) : (bump_view id r).id = r.id := by
  unfold bump_view; split <;> rfl

theorem update_like_count_some (rows : List PostRow) (id : Str) (x : List PostRow × Nat)
    (h : update_like_count rows id = some x) :
    x = (rows.map (bump_like id), (rows.filter (fun r => r.id = id)).length) := by
  induction rows generalizing x with
  | nil => simp [update_like_count] at h; simp [← h]
  | cons r rs ih =>
    unfold update_like_count at h
    by_cases hr : r.id = id
    · simp only [hr, if_true] at h
      split at h
      · simp at h
      · cases hu : update_like_count rs id with
        | none => rw [hu] at h; simp at h
        | some y =>
          rw [hu] at h
          simp only [Option.map_some', Option.some.injEq] at h
          have := ih y hu
          rw [← h, this]
          simp [bump_like, hr]
    · simp only [hr, if_false] at h
      cases hu : update_like_count rs id with
      | none => rw [hu] at h; simp at h
      | some y =>
        rw [hu] at h
        simp only [Option.map_some', Option.some.injEq] at h
        have := ih y hu
        rw [← h, this]
        simp [bump_like, hr]

theorem update_view_count_some (rows : List PostRow) (id : Str) (x : List PostRow × Nat)
    (h : update_view_count rows id = some x) :
    x = (rows.map (bump_view id), (rows.filter (fun r => r.id = id)).length) := by
  induction rows generalizing x with
  | nil => simp [update_view_count] at h; simp [← h]
  | cons r rs ih =>
    unfold update_view_count at h
    by_cases hr : r.id = id
    · simp only [hr, if_true] at h
      split at h
      · simp at h
      · cases hu : update_view_count rs id with
        | none => rw [hu] at h; simp at h
        | some y =>
          rw [hu] at h
          simp only [Option.map_some', Option.some.injEq] at h
          have := ih y hu
          rw [← h, this]
          simp [bump_view, hr]
    · simp only [hr, if_false] at h
      cases hu : update_view_count rs id with
      | none => rw [hu] at h; simp at h
      | some y =>
        rw [hu] at h
        simp only [Option.map_some', Option.some.injEq] at h
        have := ih y hu
        rw [← h, this]
        simp [bump_view, hr]

theorem update_like_count_ok (rows : List PostRow) (id : Str)
    (h : ∀ r ∈ rows, r.id = id → r.like_count < INT_MAX) :
    update_like_count rows id
      = some (rows.map (bump_like id), (rows.filter (fun r => r.id = id)).length) := by
  cases hu : update_like_count rows id with
  | some x => rw [update_like_count_some rows id x hu]
  | none =>
    exfalso
    induction rows with
    | nil => simp [update_like_count] at hu
    | cons r rs ih =>
      unfold update_like_count at hu
      have hrs : ∀ r ∈ rs, r.id = id → r.like_count < INT_MAX :=
        fun r' hr' => h r' (List.mem_cons_of_mem _ hr')
      by_cases hr : r.id = id
      · have := h r (List.mem_cons_self _ _) hr
        have hno : ¬ r.like_count + 1 > INT_MAX := by omega
        simp only [hr, if_true, hno, if_false, Option.map_eq_none'] at hu
        exact ih hrs hu
      · simp only [hr, if_false, Option.map_eq_none'] at hu
        exact ih hrs hu

theorem get_post_some_iff (t : Tables) (id : Str) (p : Post) :
    get_post ⟨some t⟩ id = some p ↔
      ∃ row rest, t.posts.filter (fun r => r.id = id) = row :: rest
        ∧ p = post_of_row row ((t.post_images.filter (fun r => r.post_id = id)).map ImageRow.path) := by
  unfold get_post
  simp only
  cases hf : t.posts.filter (fun r => r.id = id) with
  | nil => simp
  | cons row rest =>
    simp only [Option.some.injEq, List.cons.injEq, post_of_row]
    constructor
    · intro h; exact ⟨row, rest, ⟨rfl, rfl⟩, h.symm⟩
    · rintro ⟨row', rest', ⟨rfl, rfl⟩, h⟩; exact h.symm

theorem filter_id_map (f : PostRow → PostRow) (hf : ∀ r, (f r).id = r.id) (rows : List PostRow)
    (id : Str) :
    (rows.map f).filter (fun r => r.id = id) = (rows.filter (fun r => r.id = id)).map f := by
  induction rows with
  | nil => rfl
  | cons r rs ih =>
    simp only [List.map_cons, List.filter_cons, hf r, ih]
    split <;> simp

/-- Reading a post after a row-wise update that keeps the ids. -/
theorem get_post_map (f : PostRow → PostRow) (hf : ∀ r, (f r).id = r.id) (t : Tables)
    (id : Str) :
    get_post ⟨some { t with posts := t.posts.map f }⟩ id
      = match t.posts.filter (fun r => r.id = id) with
        | [] => none
        | row :: _ => some (post_of_row (f row)
            ((t.post_images.filter (fun r => r.post_id = id)).map ImageRow.path)) := by
  unfold get_post
  simp only [filter_id_map f hf]
  cases t.posts.filter (fun r => r.id = id) with
  | nil => rfl
  | cons row rest => rfl

theorem rows_unique_of_nodup (rows : List PostRow) (h : (rows.map PostRow.id).Nodup)
    (r r' : PostRow) (hr : r ∈ rows) (hr' : r' ∈ rows) (e : r.id = r'.id) : r = r' :=
  List.inj_on_of_nodup_map h hr hr' e

theorem mem_of_filter_eq_cons (rows : List PostRow) (id : Str) (row : PostRow)
    (rest : List PostRow) (h : rows.filter (fun r => r.id = id) = row :: rest) :
    row ∈ rows ∧ row.id = id := by
  have hm : row ∈ rows.filter (fun r => r.id = id) := by rw [h]; exact List.mem_cons_self _ _
  rw [List.mem_filter] at hm
  exact ⟨hm.1, by simpa using hm.2⟩

theorem get_post_after_like (t : Tables) (id id' : Str) :
    get_post ⟨some { t with posts := t.posts.map (bump_like id) }⟩ id'
      = (get_post ⟨some t⟩ id').map
          (fun q => if id' = id then { q with like_count := q.like_count + 1 } else q) := by
  rw [get_post_map (bump_like id) (bump_like_id id)]
  unfold get_post
  simp only
  cases hf : t.posts.filter (fun r => r.id = id') with
  | nil => rfl
  | cons row rest =>
    have hrow := (mem_of_filter_eq_cons _ _ _ _ hf).2
    simp only [Option.map_some', Option.some.injEq, post_of_row, bump_like, hrow]
    by_cases e : id' = id
    · simp [e]
    · simp [e, hrow]

theorem get_post_after_view (t : Tables) (id id' : Str) :
    get_post ⟨some { t with posts := t.posts.map (bump_view id) }⟩ id'
      = (get_post ⟨some t⟩ id').map
          (fun q => if id' = id then { q with view_count := q.view_count + 1 } else q) := by
  rw [get_post_map (bump_view id) (bump_view_id id)]
  unfold get_post
  simp only
  cases hf : t.posts.filter (fun r => r.id = id') with
  | nil => rfl
  | cons row rest =>
    have hrow := (mem_of_filter_eq_cons _ _ _ _ hf).2
    simp only [Option.map_some', Option.some.injEq, post_of_row, bump_view, hrow]
    by_cases e : id' = id
    · simp [e]
    · simp [e, hrow]

theorem isEmpty_eq_false_of_ne_nil (s : Str) (h : s ≠ []) : s.isEmpty = false := by
  cases s with
  | nil => exact absurd rfl h
  | cons _ _ => rfl

/-- A like of an existing post whose counter is below the `INTEGER` maximum succeeds. -/
theorem handle_api_like_ok (sc : Bool) (t : Tables) (id : Str) (p : Post)
    (hpk : (t.posts.map PostRow.id).Nodup) (hid : id ≠ [])
    (hp : get_post ⟨some t⟩ id = some p) (hlt : p.like_count < INT_MAX) :
    handle_api_like sc ⟨some t⟩ id
      = ⟨ok_response (create_success_response []),
          ⟨some { t with posts := t.posts.map (bump_like id) }⟩, 0, []⟩ := by
  obtain ⟨row, rest, hf, hpr⟩ := (get_post_some_iff t id p).mp hp
  have hrow := mem_of_filter_eq_cons _ _ _ _ hf
  have hall : ∀ r ∈ t.posts, r.id = id → r.like_count < INT_MAX := by
    intro r hr e
    have : r = row := rows_unique_of_nodup t.posts hpk r row hr hrow.1 (e.trans hrow.2.symm)
    rw [this]
    rw [hpr] at hlt
    exact hlt
  unfold handle_api_like increment_like_count
  simp [isEmpty_eq_false_of_ne_nil id hid, update_like_count_ok t.posts id hall, hf]

/-- A like changes nothing but the like counter of the post it names. -/
theorem handle_api_like_frame (sc : Bool) (dm : DatabaseManager) (j j' : Str) :
    get_post (handle_api_like sc dm j).db j' = get_post dm j'
      ∨ (j' = j ∧ ∃ q, get_post dm j' = some q
          ∧ get_post (handle_api_like sc dm j).db j'
            = some { q with like_count := q.like_count + 1 }) := by
  have hdb : (handle_api_like sc dm j).db = dm
      ∨ ∃ t, dm = ⟨some t⟩ ∧
          (handle_api_like sc dm j).db = ⟨some { t with posts := t.posts.map (bump_like j) }⟩ := by
    unfold handle_api_like
    by_cases hj : j.isEmpty = true
    · left; simp [hj]
    · simp only [hj, Bool.false_eq_true, if_false]
      have hdb2 : (increment_like_count dm j).2 = dm
          ∨ ∃ t, dm = ⟨some t⟩ ∧
            (increment_like_count dm j).2 = ⟨some { t with posts := t.posts.map (bump_like j) }⟩ := by
        unfold increment_like_count
        rcases dm with ⟨_ | t⟩
        · left; rfl
        · cases hu : update_like_count t.posts j with
          | none => left; simp [hu]
          | some x =>
            right
            have := update_like_count_some t.posts j x hu
            rw [this] at hu
            exact ⟨t, rfl, by simp [hu]⟩
      split <;> exact hdb2
  rcases hdb with h | ⟨t, rfl, h⟩
  · left; rw [h]
  · rw [h, get_post_after_like]
    by_cases e : j' = j
    · cases hg : get_post ⟨some t⟩ j' with
      | none => left; rfl
      | some q => right; exact ⟨e, q, rfl, by simp [e]⟩
    · left
      cases hg : get_post ⟨some t⟩ j' with
      | none => rfl
      | some q => simp [e]

/-- A view of an existing post answers 200 with the JSON of the post as it is read back,
which differs from the post before at most in its view counter. -/
theorem handle_api_view_existing (sc : Bool) (dm : DatabaseManager) (id : Str) (p : Post)
    (hid : id ≠ []) (hp : get_post dm id = some p) :
    ∃ q, get_post (handle_api_view sc dm id).db id = some q
      ∧ (handle_api_view sc dm id).response
          = ok_response (create_success_response (post_json sc q))
      ∧ (q = p ∨ q = { p with view_count := p.view_count + 1 }) := by
  have hdb : (increment_view_count dm id).2 = dm
      ∨ ∃ t, dm = ⟨some t⟩ ∧
        (increment_view_count dm id).2 = ⟨some { t with posts := t.posts.map (bump_view id) }⟩ := by
    unfold increment_view_count
    rcases dm with ⟨_ | t⟩
    · left; rfl
    · cases hu : update_view_count t.posts id with
      | none => left; simp [hu]
      | some x =>
        right
        have := update_view_count_some t.posts id x hu
        rw [this] at hu
        exact ⟨t, rfl, by simp [hu]⟩
  unfold handle_api_view
  simp only [isEmpty_eq_false_of_ne_nil id hid, Bool.false_eq_true, if_false]
  rcases hdb with h | ⟨t, rfl, h⟩
  · rw [h, hp]
    exact ⟨p, hp, rfl, Or.inl rfl⟩
  · have hg : get_post ⟨some { t with posts := t.posts.map (bump_view id) }⟩ id
        = some { p with view_count := p.view_count + 1 } := by
      rw [get_post_after_view, hp]; simp
    rw [h, hg]
    exact ⟨_, hg, rfl, Or.inr rfl⟩

/-! ### The parse loop ends within its bound; the checks of `handle_api_submit` -/

theorem find_at_bounds (needle hay : Str) (i : Nat) (h : find_at needle hay = some i) :
    i + needle.length ≤ hay.length := by
  induction hay generalizing i with
  | nil =>
    unfold find_at at h
    split at h
    · rename_i hn; simp at h; simp [hn, ← h]
    · simp at h
  | cons c hay ih =>
    unfold find_at at h
    split at h
    · rename_i hp
      rw [List.isPrefixOf_iff_prefix] at hp
      simp at h
      have := hp.length_le
      omega
    · cases hf : find_at needle hay with
      | none => rw [hf] at h; simp at h
      | some j =>
        rw [hf] at h
        simp at h
        have := ih j hf
        simp only [List.length_cons]
        omega

theorem find_bounds (hay needle : Str) (pos i : Nat) (h : find hay needle pos = some i) :
    pos ≤ i ∧ i + needle.length ≤ hay.length := by
  unfold find at h
  split at h
  · rename_i hpos
    cases hf : find_at needle (hay.drop pos) with
    | none => rw [hf] at h; simp at h
    | some j =>
      rw [hf] at h
      simp at h
      have := find_at_bounds needle _ j hf
      simp only [List.length_drop] at this
      omega
  · simp at h

/-- The loop of `parse_multipart_form` ends within its iteration bound: every iteration
that does not leave the loop moves `pos` forward by the length of the delimiter at least. -/
theorem parse_loop_ok (fs : Nat → SaveOutcome) (body delimiter : Str)
    (hd : 1 ≤ delimiter.length) (fuel : Nat) :
    ∀ pos st, body.length ≤ pos + fuel →
      ∃ st1, parse_loop fs body delimiter fuel pos st = .ok st1 := by
  induction fuel with
  | zero =>
    intro pos st h
    have : ¬ pos < body.length := by omega
    exact ⟨st, by simp [parse_loop, this]⟩
  | succ fuel ih =>
    intro pos st h
    unfold parse_loop
    by_cases hlt : pos < body.length
    · simp only [hlt, if_true]
      cases hf : find body delimiter pos with
      | none => exact ⟨st, rfl⟩
      | some start0 =>
        simp only
        have hb := find_bounds body delimiter pos start0 hf
        apply ih
        cases hf2 : find body delimiter (start0 + delimiter.length) with
        | none => simp
        | some e =>
          have hb2 := find_bounds body delimiter _ e hf2
          simp only [Option.getD_some]
          omega
    · exact ⟨st, by simp [hlt]⟩

theorem parse_multipart_form_ok (fs : Nat → SaveOutcome) (body boundary : Str)
    (st : ParseState) :
    ∃ st1, parse_multipart_form fs body boundary st = .ok (!st1.content.isEmpty, st1) := by
  obtain ⟨st1, h⟩ := parse_loop_ok fs body (lit "--" ++ boundary)
    (by simp [lit, utf8_encode]) body.length 0 st (by omega)
  exact ⟨st1, by simp [parse_multipart_form, h]⟩

/-- The post `handle_api_submit` hands to `save_post`. -/
theorem handle_api_submit_cases (sc : Bool) (env : Env) (dm : DatabaseManager) (req : Request)
    (boundary : Str) (st : ParseState)
    (hb : extract_boundary req.content_type = .ok boundary)
    (hp : parse_multipart_form env.fs req.body boundary ⟨[], [], 0⟩
      = .ok (!st.content.isEmpty, st)) :
    handle_api_submit sc env dm req
      = .ok (if boundary = [] then
          ⟨bad_request sc (lit "缺少multipart boundary"), dm, 0, []⟩
        else if st.content = [] then
          ⟨bad_request sc (lit "解析表单数据失败"), dm, st.saves, []⟩
        else if (trim st.content).length < 50 then
          ⟨bad_request sc (lit "评论内容不能少于50字"), dm, st.saves, []⟩
        else if st.image_files.length > 9 then
          ⟨bad_request sc (lit "最多只能上传9张图片"), dm, st.saves, []⟩
        else if (save_post dm env.now (submitted_post env st)).1 = false then
          ⟨server_error sc (lit "保存评论失败"), (save_post dm env.now (submitted_post env st)).2,
            st.saves, [submitted_post env st]⟩
        else
          ⟨ok_response (create_success_response
              (lit "\x7b\"id\":\"" ++ generate env.draw ++ lit "\"\x7d")),
            (save_post dm env.now (submitted_post env st)).2, st.saves,
            [submitted_post env st]⟩) := by
  unfold handle_api_submit
  rw [hb]
  simp only
  by_cases h1 : boundary = []
  · simp [h1]
  · have e1 : boundary.isEmpty = false := isEmpty_eq_false_of_ne_nil _ h1
    simp only [e1, Bool.false_eq_true, if_false, h1]
    rw [hp]
    simp only
    by_cases h2 : st.content = []
    · simp [h2]
    · have e2 : st.content.isEmpty = false := isEmpty_eq_false_of_ne_nil _ h2
      simp only [e2, Bool.not_false, Bool.not_true, Bool.false_eq_true, if_false, h2]
      by_cases h3 : (trim st.content).length < 50
      · have : validate_content_length st.content 50 = false := by
          simp [validate_content_length, h3]
        simp [this, h3]
      · have : validate_content_length st.content 50 = true := by
          simp only [validate_content_length, decide_eq_true_eq]; omega
        simp only [this, Bool.not_true, Bool.false_eq_true, if_false, h3]
        by_cases h4 : st.image_files.length > 9
        · simp [h4]
        · simp only [h4, if_false]
          by_cases h5 : (save_post dm env.now (submitted_post env st)).1 = false
          · have h5' : (save_post dm env.now
                { id := generate env.draw, content := st.content, image_paths := st.image_files,
                  created_at := [], view_count := 0, like_count := 0 }).1 = false := h5
            simp [h5, h5', submitted_post]
          · have h5' : ¬ (save_post dm env.now
                { id := generate env.draw, content := st.content, image_paths := st.image_files,
                  created_at := [], view_count := 0, like_count := 0 }).1 = false := h5
            simp only [Bool.not_eq_false] at h5'
            simp [h5, h5', submitted_post]

theorem parse_multipart_form_flag (fs : Nat → SaveOutcome) (body boundary : Str)
    (st0 st : ParseState) (parsed : Bool)
    (h : parse_multipart_form fs body boundary st0 = .ok (parsed, st)) :
    parse_multipart_form fs body boundary st0 = .ok (!st.content.isEmpty, st) := by
  obtain ⟨st1, h1⟩ := parse_multipart_form_ok fs body boundary st0
  rw [h1] at h
  simp only [Except.ok.injEq, Prod.mk.injEq] at h
  rw [h1, h.2]

/-! ### Substring search -/

theorem find_at_eq_none_iff (N H : Str) : find_at N H = none ↔ ¬ N <:+: H := by
  induction H with
  | nil =>
    unfold find_at
    by_cases h : N = []
    · simp [h]
    · simp [h]
  | cons c H ih =>
    unfold find_at
    rw [List.infix_cons_iff, not_or, ← ih]
    by_cases hp : N.isPrefixOf (c :: H) = true
    · simp only [hp, if_true]
      rw [List.isPrefixOf_iff_prefix] at hp
      simp [hp]
    · simp only [hp, Bool.false_eq_true, if_false, Option.map_eq_none']
      rw [List.isPrefixOf_iff_prefix] at hp
      simp [hp]

theorem find_at_prefix_zero (N H : Str) (h : N <+: H) : find_at N H = some 0 := by
  cases H with
  | nil =>
    have : N = [] := List.prefix_nil.mp h
    simp [find_at, this]
  | cons c H =>
    unfold find_at
    have hp : N.isPrefixOf (c :: H) = true := List.isPrefixOf_iff_prefix.mpr h
    simp [hp]

/-- The first occurrence of `N` in `A ++ N ++ R` is at `A.length` when no occurrence starts
earlier. -/
theorem find_at_append (N A R : Str) (h : ¬ N <:+: A ++ N.dropLast) :
    find_at N (A ++ (N ++ R)) = some A.length := by
  induction A with
  | nil => simpa using find_at_prefix_zero N (N ++ R) (List.prefix_append _ _)
  | cons a A ih =>
    have hA : ¬ N <:+: A ++ N.dropLast := by
      intro hi
      apply h
      rw [List.cons_append, List.infix_cons_iff]
      exact Or.inr hi
    have hne : N ≠ [] := by
      rintro rfl
      exact h List.nil_infix
    have hnp : ¬ N <+: a :: A ++ (N ++ R) := by
      intro hp
      apply h
      have h1 : a :: A ++ N.dropLast <+: a :: A ++ (N ++ R) := by
        rw [List.prefix_append_right_inj]
        exact (List.dropLast_prefix N).trans (List.prefix_append _ _)
      have hl : N.length ≤ (a :: A ++ N.dropLast).length := by
        have : 0 < N.length := List.length_pos.mpr hne
        simp only [List.cons_append, List.length_cons, List.length_append, List.length_dropLast]
        omega
      exact (List.prefix_of_prefix_length_le hp h1 hl).isInfix
    rw [List.cons_append, find_at]
    have hb : N.isPrefixOf (a :: (A ++ (N ++ R))) = false := by
      rw [Bool.eq_false_iff]
      intro hp
      exact hnp (List.isPrefixOf_iff_prefix.mp hp)
    simp [hb, ih hA]

theorem find_of_append (pre rest N : Str) :
    find (pre ++ rest) N pre.length = (find_at N rest).map (· + pre.length) := by
  unfold find
  simp

theorem find_zero (H N : Str) : find H N 0 = find_at N H := by
  unfold find
  simp

/-- An occurrence of `N` in `A ++ c :: B` lies in `A`, lies in `B`, or covers the `c`. -/
theorem infix_append_cons (N A B : Str) (c : Nat) (h : N <:+: A ++ c :: B) :
    N <:+: A ∨ N <:+: B ∨
      ∃ k, k < N.length ∧ N[k]? = some c ∧ N.take k <:+ A ∧ N.drop (k + 1) <+: B := by
  induction A with
  | nil =>
    rw [List.nil_append, List.infix_cons_iff] at h
    rcases h with h | h
    · rcases List.prefix_cons_iff.mp h with rfl | ⟨t, rfl, ht⟩
      · exact Or.inl List.nil_infix
      · exact Or.inr (Or.inr ⟨0, by simp, by simp, by simp, by simpa using ht⟩)
    · exact Or.inr (Or.inl h)
  | cons a A ih =>
    rw [List.cons_append, List.infix_cons_iff] at h
    rcases h with h | h
    · by_cases hl : N.length ≤ (a :: A).length
      · left
        have h1 : a :: A <+: a :: (A ++ c :: B) := by
          rw [← List.cons_append]; exact List.prefix_append _ _
        exact (List.prefix_of_prefix_length_le h h1 hl).isInfix
      · right; right
        have hl' : (a :: A).length < N.length := by omega
        obtain ⟨t, ht⟩ := h
        have h1 : a :: A <+: N := by
          have h2 : a :: A <+: N ++ t := by
            rw [ht, ← List.cons_append]; exact List.prefix_append _ _
          exact List.prefix_of_prefix_length_le h2 (List.prefix_append _ _) (by omega)
        obtain ⟨r, hr⟩ := h1
        rw [← hr, List.append_assoc, ← List.cons_append] at ht
        have ht2 := List.append_cancel_left ht
        cases r with
        | nil => simp [← hr] at hl'
        | cons x r =>
          simp only [List.cons_append, List.cons.injEq] at ht2
          refine ⟨(a :: A).length, by rw [← hr]; simp, ?_, ?_, ?_⟩
          · rw [← hr, List.getElem?_append_right (Nat.le_refl _)]
            simp [ht2.1]
          · rw [← hr, List.take_left]
          · rw [← hr, List.drop_append]
            exact ⟨t, ht2.2⟩
    · rcases ih h with h | h | ⟨k, hk, hg, hs, hp⟩
      · exact Or.inl ((List.infix_cons_iff).mpr (Or.inr h))
      · exact Or.inr (Or.inl h)
      · exact Or.inr (Or.inr ⟨k, hk, hg, (List.suffix_cons_iff).mpr (Or.inr hs), hp⟩)

/-- An occurrence of `N` in `A ++ c :: B` lies in `A` or in `B` when `c` is no byte of `N`. -/
theorem infix_append_cons_of_not_mem (N A B : Str) (c : Nat) (hc : c ∉ N)
    (h : N <:+: A ++ c :: B) : N <:+: A ∨ N <:+: B := by
  rcases infix_append_cons N A B c h with h | h | ⟨k, hk, hg, _, _⟩
  · exact Or.inl h
  · exact Or.inr h
  · exfalso
    apply hc
    exact List.getElem?_mem hg

/-! ### The parse loop on a body made of delimited parts -/

theorem parse_loop_done (fs : Nat → SaveOutcome) (body D : Str) (fuel pos : Nat)
    (st : ParseState) (h : body.length ≤ pos) : parse_loop fs body D fuel pos st = .ok st := by
  have : ¬ pos < body.length := by omega
  cases fuel <;> simp [parse_loop, this]

/-- One iteration of the loop at a delimiter that is followed by the part `region` and then
by the end of the body or by the next delimiter. -/
theorem parse_loop_step (fs : Nat → SaveOutcome) (D pre region rest : Str) (fuel : Nat)
    (st : ParseState) (hD : D ≠ []) (hrest : rest = [] ∨ D <+: rest)
    (hno : ¬ D <:+: region ++ D.dropLast) :
    parse_loop fs (pre ++ (D ++ (region ++ rest))) D (fuel + 1) pre.length st
      = parse_loop fs (pre ++ (D ++ (region ++ rest))) D fuel (pre ++ D ++ region).length
          (parse_part fs region st) := by
  have hDl : 0 < D.length := List.length_pos.mpr hD
  have hlt : pre.length < (pre ++ (D ++ (region ++ rest))).length := by
    simp only [List.length_append]; omega
  have h1 : find (pre ++ (D ++ (region ++ rest))) D pre.length = some pre.length := by
    rw [find_of_append, find_at_prefix_zero D _ (List.prefix_append _ _)]
    simp
  have h2 : (find (pre ++ (D ++ (region ++ rest))) D (pre.length + D.length)).getD
      (pre ++ (D ++ (region ++ rest))).length = (pre ++ D ++ region).length := by
    have e : pre ++ (D ++ (region ++ rest)) = (pre ++ D) ++ (region ++ rest) := by
      simp only [List.append_assoc]
    have el : pre.length + D.length = (pre ++ D).length := by simp
    rw [e, el, find_of_append]
    rcases hrest with rfl | ⟨r, rfl⟩
    · have hn : find_at D (region ++ []) = none := by
        rw [find_at_eq_none_iff, List.append_nil]
        intro hi
        exact hno (hi.trans (List.prefix_append _ _).isInfix)
      rw [hn]
      simp
    · rw [find_at_append D region r hno]
      simp
      omega
  rw [parse_loop]
  simp only [hlt, if_true, h1, h2]
  have h3 : substr (pre ++ (D ++ (region ++ rest))) (pre.length + D.length)
      ((pre ++ D ++ region).length - (pre.length + D.length)) = region := by
    unfold substr
    have e : pre ++ (D ++ (region ++ rest)) = (pre ++ D) ++ (region ++ rest) := by
      simp only [List.append_assoc]
    have el : pre.length + D.length = (pre ++ D).length := by simp
    rw [e, el, List.drop_left]
    have : (pre ++ D ++ region).length - (pre ++ D).length = region.length := by
      simp only [List.length_append]; omega
    rw [this, List.take_left]
  rw [h3]

theorem flatten_delimited_head (D : Str) (regions : List Str) :
    (regions.map (D ++ ·)).flatten = [] ∨ D <+: (regions.map (D ++ ·)).flatten := by
  cases regions with
  | nil => left; rfl
  | cons r rs =>
    right
    simp only [List.map_cons, List.flatten_cons, List.append_assoc]
    exact List.prefix_append _ _

/-- The loop on a body that is a sequence of delimited parts runs `parse_part` on each part
in order. -/
theorem parse_loop_regions (fs : Nat → SaveOutcome) (D : Str) (hD : D ≠ [])
    (regions : List Str) (hno : ∀ r ∈ regions, ¬ D <:+: r ++ D.dropLast) :
    ∀ (pre : Str) (st : ParseState) (fuel : Nat), regions.length ≤ fuel →
      parse_loop fs (pre ++ (regions.map (D ++ ·)).flatten) D fuel pre.length st
        = .ok (regions.foldl (fun s r => parse_part fs r s) st) := by
  induction regions with
  | nil =>
    intro pre st fuel _
    exact parse_loop_done fs _ D fuel _ st (by simp)
  | cons r rs ih =>
    intro pre st fuel hf
    obtain ⟨f, rfl⟩ : ∃ f, fuel = f + 1 := ⟨fuel - 1, by simp at hf; omega⟩
    have hbody : pre ++ ((r :: rs).map (D ++ ·)).flatten
        = pre ++ (D ++ (r ++ (rs.map (D ++ ·)).flatten)) := by
      simp only [List.map_cons, List.flatten_cons, List.append_assoc]
    rw [hbody, parse_loop_step fs D pre r _ f st hD (flatten_delimited_head D rs)
      (hno r (List.mem_cons_self _ _))]
    have hbody2 : pre ++ (D ++ (r ++ (rs.map (D ++ ·)).flatten))
        = (pre ++ D ++ r) ++ (rs.map (D ++ ·)).flatten := by
      simp only [List.append_assoc]
    rw [hbody2, ih (fun r' hr' => hno r' (List.mem_cons_of_mem _ hr')) (pre ++ D ++ r) _ f
      (by simp at hf; omega)]
    rfl

/-! ### `parse_part` on the parts of a well-formed body -/

theorem parse_part_eq (fs : Nat → SaveOutcome) (part : Str) (st : ParseState) :
    parse_part fs part st
      = match find part (lit "\r\n\r\n") 0 with
        | none => st
        | some header_end =>
          part_effect fs (substr part 0 header_end) (substr_from part (header_end + 4)) st :=
  rfl

/-- Behaviour of `parse_part` on a part whose headers `H` hold no blank line. -/
theorem parse_part_of_headers (fs : Nat → SaveOutcome) (H R : Str) (st : ParseState)
    (hH : ¬ lit "\r\n\r\n" <:+: H ++ (lit "\r\n\r\n").dropLast) :
    parse_part fs (H ++ (lit "\r\n\r\n" ++ R)) st = part_effect fs H R st := by
  rw [parse_part_eq, find_zero, find_at_append _ H R hH]
  simp only [substr, substr_from, List.drop_zero, List.take_left]
  have e : H ++ (lit "\r\n\r\n" ++ R) = (H ++ lit "\r\n\r\n") ++ R := by
    simp only [List.append_assoc]
  have el : H.length + 4 = (H ++ lit "\r\n\r\n").length := by
    simp only [List.length_append]; rfl
  rw [e, el, List.drop_left]

theorem strip_crlf (t : Str) :
    (if (t ++ CRLF).length ≥ 2 ∧ substr_from (t ++ CRLF) ((t ++ CRLF).length - 2) = CRLF
      then substr (t ++ CRLF) 0 ((t ++ CRLF).length - 2) else t ++ CRLF) = t := by
  have h1 : (t ++ CRLF).length - 2 = t.length := by simp [CRLF]
  have h2 : (t ++ CRLF).length ≥ 2 := by simp [CRLF]
  simp only [h1, h2, substr_from, substr, List.drop_left, List.drop_zero, List.take_left,
    true_and, if_true]

theorem parse_part_content_region (fs : Nat → SaveOutcome) (text : Str) (st : ParseState) :
    parse_part fs (content_region text) st = { st with content := text } := by
  have e : content_region text
      = (CRLF ++ lit "Content-Disposition: form-data; name=\"content\"")
          ++ (lit "\r\n\r\n" ++ (text ++ CRLF)) := by
    simp only [content_region, List.append_assoc]
    rfl
  rw [e, parse_part_of_headers fs _ _ st ((find_at_eq_none_iff _ _).mp (by decide))]
  unfold part_effect
  rw [strip_crlf]
  have h : (find (CRLF ++ lit "Content-Disposition: form-data; name=\"content\"")
      (lit "name=\"content\"") 0).isSome = true := by decide
  simp only [h, if_true]

theorem not_infix_of_mem_not_mem (N X : Str) (c : Nat) (hN : c ∈ N) (hX : c ∉ X) :
    ¬ N <:+: X := fun h => hX (h.subset hN)

theorem not_infix_sep (D A B : Str) (c : Nat) (hc : c ∉ D) (hA : ¬ D <:+: A)
    (hB : ¬ D <:+: B) : ¬ D <:+: A ++ c :: B := by
  intro h
  rcases infix_append_cons_of_not_mem D A B c hc h with h | h
  · exact hA h
  · exact hB h

theorem not_infix_of_length_lt (D X : Str) (h : X.length < D.length) : ¬ D <:+: X := by
  intro hi
  have := hi.length_le
  omega

theorem delim_not_mem (b : Str) (c : Nat) (hc : c ≠ 45) (hb : c ∉ b) : c ∉ lit "--" ++ b := by
  have h2 : lit "--" = [45, 45] := by decide
  rw [h2]
  simp only [List.cons_append, List.nil_append, List.mem_cons, not_or]
  exact ⟨hc, hc, hb⟩

theorem delim_not_infix_of_no_dashes (b X : Str) (h : ¬ lit "--" <:+: X) :
    ¬ (lit "--" ++ b) <:+: X := by
  intro hi
  exact h ((List.prefix_append _ _).isInfix.trans hi)

theorem ends_with_iff_suffix (lower ext : Str) :
    (decide (lower.length ≥ ext.length)
        && decide (substr_from lower (lower.length - ext.length) = ext)) = true
      ↔ ext <:+ lower := by
  simp only [Bool.and_eq_true, decide_eq_true_eq, substr_from]
  constructor
  · rintro ⟨_, h⟩
    exact List.suffix_iff_eq_drop.mpr h.symm
  · intro h
    exact ⟨h.length_le, (List.suffix_iff_eq_drop.mp h).symm⟩

theorem validate_image_format_iff (filename : Str) :
    validate_image_format filename = true
      ↔ ∃ ext ∈ valid_extensions, ext <:+ filename.map tolower := by
  unfold validate_image_format
  simp only [List.any_eq_true]
  constructor
  · rintro ⟨ext, hm, h⟩
    exact ⟨ext, hm, (ends_with_iff_suffix _ _).mp h⟩
  · rintro ⟨ext, hm, h⟩
    exact ⟨ext, hm, (ends_with_iff_suffix _ _).mpr h⟩

theorem valid_extensions_length_le : ∀ ext ∈ valid_extensions, ext.length ≤ 5 := by decide

/-! ### The generated id -/

theorem dec_digits_small :
    ∀ m : Nat, m < 1000 → 1 ≤ m →
      1 ≤ (dec_digits (m + 1) m).length ∧ (dec_digits (m + 1) m).length ≤ 3
        ∧ (∀ c ∈ dec_digits (m + 1) m, 48 ≤ c ∧ c ≤ 57)
        ∧ (dec_digits (m + 1) m).head? ≠ some 48
        ∧ dec_value (dec_digits (m + 1) m) = m := by
  decide

theorem to_string_of_nat (m : Nat) : to_string (m : Int) = dec_digits (m + 1) m := by
  unfold to_string
  have h : ¬ (m : Int) < 0 := by omega
  simp [h]

theorem words_lowercase :
    ∀ w ∈ words, 4 ≤ w.length ∧ w.length ≤ 5 ∧ ∀ c ∈ w, 97 ≤ c ∧ c ≤ 122 := by
  decide

/-! ### Where the boundary extraction is undefined -/

theorem extract_boundary_error_iff (content_type : Str) :
    extract_boundary content_type = .error .undefined_behaviour
      ↔ ∃ boundary_pos, find content_type (lit "boundary=") 0 = some boundary_pos
          ∧ (substr_from content_type (boundary_pos + 9) = []
            ∨ substr_from content_type (boundary_pos + 9) = [34]) := by
  unfold extract_boundary
  cases hf : find content_type (lit "boundary=") 0 with
  | none => simp
  | some boundary_pos =>
    simp only [Option.some.injEq, exists_eq_left']
    by_cases h1 : substr_from content_type (boundary_pos + 9) = []
    · simp [h1]
    · simp only [h1, if_false, false_or]
      cases hs : substr_from content_type (boundary_pos + 9) with
      | nil => exact absurd hs h1
      | cons c rest =>
        by_cases hc : c = 34
        · subst hc
          cases rest with
          | nil => simp
          | cons r rest => simp
        · simp [hc]

/-! ### The path of an upload -/

theorem upload_path_eq (timestamp : Int) (filename : Str) :
    upload_path timestamp filename
      = lit "uploads/img_" ++ to_string timestamp ++ file_extension filename := by
  unfold upload_path file_extension
  simp only [List.append_assoc]
  rfl

theorem find_last_of_eq_none (c : Nat) (s : Str) (h : c ∉ s) : find_last_of c s = none := by
  induction s with
  | nil => rfl
  | cons x xs ih =>
    simp only [List.mem_cons, not_or] at h
    have hx : ¬ x = c := fun e => h.1 e.symm
    simp [find_last_of, ih h.2, hx]

theorem find_last_of_append_cons (c : Nat) (front rest : Str) (h : c ∉ rest) :
    find_last_of c (front ++ c :: rest) = some front.length := by
  induction front with
  | nil => simp [find_last_of, find_last_of_eq_none c rest h]
  | cons x xs ih => simp [find_last_of, ih]

theorem find_last_of_some (c : Nat) (s : Str) (i : Nat) (h : find_last_of c s = some i) :
    ∃ rest, s.drop i = c :: rest ∧ c ∉ rest := by
  induction s generalizing i with
  | nil => simp [find_last_of] at h
  | cons x xs ih =>
    unfold find_last_of at h
    cases hx : find_last_of c xs with
    | some j =>
      rw [hx] at h
      simp only [Option.some.injEq] at h
      subst h
      simpa using ih j hx
    | none =>
      rw [hx] at h
      simp only at h
      split at h
      · rename_i hxc
        simp only [Option.some.injEq] at h
        subst h
        subst hxc
        refine ⟨xs, rfl, ?_⟩
        intro hm
        have := find_last_of_isSome_of_mem x xs hm
        rw [hx] at this
        simp at this
      · simp at h

theorem file_extension_spec (filename : Str) :
    file_extension filename <:+ filename
      ∧ (file_extension filename = [] ∧ 46 ∉ filename
        ∨ ∃ rest, file_extension filename = 46 :: rest ∧ 46 ∉ rest) := by
  unfold file_extension
  cases hf : find_last_of 46 filename with
  | none =>
    refine ⟨List.nil_suffix, Or.inl ⟨rfl, ?_⟩⟩
    intro hm
    have := find_last_of_isSome_of_mem 46 filename hm
    rw [hf] at this
    simp at this
  | some i =>
    simp only [substr_from]
    exact ⟨List.drop_suffix _ _, Or.inr (find_last_of_some 46 filename i hf)⟩

theorem dec_digits_mem (fuel : Nat) : ∀ n, ∀ c ∈ dec_digits fuel n, 48 ≤ c ∧ c ≤ 57 := by
  induction fuel with
  | zero => intro n c hc; simp [dec_digits] at hc
  | succ fuel ih =>
    intro n c hc
    unfold dec_digits at hc
    split at hc
    · simp only [List.mem_singleton] at hc
      omega
    · rcases List.mem_append.mp hc with h | h
      · exact ih _ c h
      · simp only [List.mem_singleton] at h
        omega

theorem to_string_mem (v : Int) : ∀ c ∈ to_string v, c = 45 ∨ (48 ≤ c ∧ c ≤ 57) := by
  intro c hc
  unfold to_string at hc
  split at hc
  · rcases List.mem_cons.mp hc with h | h
    · exact Or.inl h
    · exact Or.inr (dec_digits_mem _ _ c h)
  · exact Or.inr (dec_digits_mem _ _ c hc)

theorem tolower_eq_dot (c : Nat) (h : tolower c = 46) : c = 46 := by
  unfold tolower at h
  split at h <;> omega

theorem tolower_slash (c : Nat) (h : c = 47) : tolower c = 47 := by
  subst h; rfl

theorem valid_extensions_shape :
    ∀ ext ∈ valid_extensions, ext.head? = some 46 ∧ 46 ∉ ext.tail ∧ 47 ∉ ext := by
  decide

/-- For an accepted file name the extension kept is its accepted suffix. -/
theorem file_extension_of_valid (filename : Str) (hv : validate_image_format filename = true) :
    (file_extension filename).map tolower ∈ valid_extensions
      ∧ 47 ∉ file_extension filename := by
  obtain ⟨ext, hm, hs⟩ := (validate_image_format_iff filename).mp hv
  obtain ⟨h1, h2, h3⟩ := valid_extensions_shape ext hm
  have hl : ext.length ≤ filename.length := by
    have := hs.length_le
    rwa [List.length_map] at this
  have hd : (filename.drop (filename.length - ext.length)).map tolower = ext := by
    have := List.suffix_iff_eq_drop.mp hs
    rw [List.length_map] at this
    rw [List.map_drop]
    exact this.symm
  have hsplit : filename = filename.take (filename.length - ext.length)
      ++ filename.drop (filename.length - ext.length) := (List.take_append_drop _ _).symm
  cases hsuf : filename.drop (filename.length - ext.length) with
  | nil =>
    rw [hsuf] at hd
    rw [← hd] at h1
    simp at h1
  | cons s0 s1 =>
    rw [hsuf] at hd hsplit
    rw [← hd] at h1 h2 h3
    simp only [List.map_cons, List.head?_cons, Option.some.injEq, List.tail_cons] at h1 h2
    have hs0 : s0 = 46 := tolower_eq_dot s0 h1
    have hs1 : 46 ∉ s1 := by
      intro hmem
      apply h2
      exact List.mem_map.mpr ⟨46, hmem, rfl⟩
    have hfe : file_extension filename = s0 :: s1 := by
      unfold file_extension
      rw [hsplit, hs0, find_last_of_append_cons 46 _ s1 hs1]
      simp only [substr_from, List.drop_left]
    have hno : 47 ∉ s0 :: s1 := by
      intro hmem
      apply h3
      exact List.mem_map.mpr ⟨47, hmem, rfl⟩
    rw [hfe]
    exact ⟨by rw [hd]; exact hm, hno⟩

/-! ### The loop as a fold over the parts it cuts out -/

theorem parse_loop_eq_foldl (fs : Nat → SaveOutcome) (body D : Str) (fuel : Nat) :
    ∀ pos st st1, parse_loop fs body D fuel pos st = .ok st1 →
      st1 = (loop_parts body D fuel pos).foldl (fun s p => parse_part fs p s) st := by
  induction fuel with
  | zero =>
    intro pos st st1 h
    unfold parse_loop at h
    split at h
    · simp at h
    · simp only [Except.ok.injEq] at h
      simp [loop_parts, h]
  | succ fuel ih =>
    intro pos st st1 h
    unfold parse_loop at h
    unfold loop_parts
    by_cases hlt : pos < body.length
    · simp only [hlt, if_true] at h ⊢
      cases hf : find body D pos with
      | none =>
        rw [hf] at h
        simp only [Except.ok.injEq] at h
        simp [h]
      | some start0 =>
        rw [hf] at h
        simp only at h
        simp only [List.foldl_cons]
        exact ih _ _ _ h
    · simp only [hlt, if_false, Except.ok.injEq] at h
      simp [hlt, h]

theorem parse_part_content (fs : Nat → SaveOutcome) (part : Str) (st : ParseState) :
    (parse_part fs part st).content = (content_field part).getD st.content := by
  rw [parse_part_eq]
  unfold content_field
  cases hf : find part (lit "\r\n\r\n") 0 with
  | none => rfl
  | some header_end =>
    simp only
    unfold part_effect
    by_cases h1 : (find (substr part 0 header_end) (lit "name=\"content\"") 0).isSome = true
    · simp only [h1, if_true]
      rfl
    · simp only [h1, Bool.false_eq_true, if_false, Option.getD_none]
      repeat' split
      all_goals rfl

theorem foldl_parse_part_content (fs : Nat → SaveOutcome) (parts : List Str) :
    ∀ st : ParseState,
      (parts.foldl (fun s p => parse_part fs p s) st).content
        = ((parts.filterMap content_field).getLast?).getD st.content := by
  induction parts with
  | nil => intro st; rfl
  | cons p ps ih =>
    intro st
    rw [List.foldl_cons, ih, parse_part_content]
    cases hc : content_field p with
    | none => simp [List.filterMap_cons, hc]
    | some c =>
      simp only [List.filterMap_cons, hc, Option.getD_some, List.getLast?_cons]

theorem parse_multipart_form_no_delimiter (fs : Nat → SaveOutcome) (body boundary : Str)
    (st : ParseState) (h : ¬ (lit "--" ++ boundary) <:+: body) :
    parse_multipart_form fs body boundary st = .ok (!st.content.isEmpty, st) := by
  have hloop : parse_loop fs body (lit "--" ++ boundary) body.length 0 st = .ok st := by
    cases hb : body.length with
    | zero => simp [parse_loop, hb]
    | succ n =>
      unfold parse_loop
      have hf : find body (lit "--" ++ boundary) 0 = none := by
        rw [find_zero, find_at_eq_none_iff]
        exact h
      simp [hb, hf]
  simp [parse_multipart_form, hloop]

/-! ### Bodies made of delimited parts after a preamble -/

theorem delimiter_length (b : Str) : 2 ≤ (lit "--" ++ b).length := by
  have h2 : (lit "--").length = 2 := by decide
  rw [List.length_append, h2]
  omega

theorem delimiter_ne_nil (b : Str) : lit "--" ++ b ≠ [] := by
  intro h
  have := delimiter_length b
  rw [h] at this
  simp at this

theorem length_le_flatten_delimited (D : Str) (hD : 1 ≤ D.length) (regions : List Str) :
    regions.length ≤ ((regions.map (D ++ ·)).flatten).length := by
  induction regions with
  | nil => simp
  | cons x l ih =>
    simp only [List.map_cons, List.flatten_cons, List.length_cons, List.length_append] at *
    omega

/-- The parser on a body that is a preamble followed by delimited parts runs `parse_part`
on each part in order. -/
theorem parse_multipart_form_regions (fs : Nat → SaveOutcome) (b preamble : Str)
    (regions : List Str) (st : ParseState)
    (hpre : ¬ (lit "--" ++ b) <:+: preamble ++ (lit "--" ++ b).dropLast)
    (hno : ∀ r ∈ regions, ¬ (lit "--" ++ b) <:+: r ++ (lit "--" ++ b).dropLast) :
    parse_multipart_form fs (preamble ++ (regions.map (lit "--" ++ b ++ ·)).flatten) b st
      = .ok (!(regions.foldl (fun s r => parse_part fs r s) st).content.isEmpty,
          regions.foldl (fun s r => parse_part fs r s) st) := by
  have hD := delimiter_ne_nil b
  cases regions with
  | nil =>
    have hnp : ¬ (lit "--" ++ b) <:+: preamble := by
      intro hi
      exact hpre (hi.trans (List.prefix_append _ _).isInfix)
    have := parse_multipart_form_no_delimiter fs preamble b st hnp
    simpa using this
  | cons r rs =>
    have hlen := length_le_flatten_delimited (lit "--" ++ b)
      (by have := delimiter_length b; omega) (r :: rs)
    have hreg := parse_loop_regions fs (lit "--" ++ b) hD (r :: rs) hno preamble st
    have hbody : preamble ++ ((r :: rs).map (lit "--" ++ b ++ ·)).flatten
        = preamble ++ ((lit "--" ++ b) ++ (r ++ (rs.map (lit "--" ++ b ++ ·)).flatten)) := by
      simp only [List.map_cons, List.flatten_cons, List.append_assoc]
    obtain ⟨n, hn⟩ : ∃ n, (preamble ++ ((r :: rs).map (lit "--" ++ b ++ ·)).flatten).length
        = n + 1 := by
      refine ⟨(preamble ++ ((r :: rs).map (lit "--" ++ b ++ ·)).flatten).length - 1, ?_⟩
      simp only [List.length_append, List.length_cons] at hlen ⊢
      omega
    have hfuel : (r :: rs).length ≤ n + 1 := by
      rw [← hn, List.length_append]
      omega
    have h1 := hreg (n + 1) hfuel
    have hlt : 0 < (preamble ++ ((r :: rs).map (lit "--" ++ b ++ ·)).flatten).length := by
      omega
    have hf0 : find (preamble ++ ((r :: rs).map (lit "--" ++ b ++ ·)).flatten) (lit "--" ++ b) 0
        = some preamble.length := by
      rw [hbody, find_zero, find_at_append _ _ _ hpre]
    have hfp : find (preamble ++ ((r :: rs).map (lit "--" ++ b ++ ·)).flatten) (lit "--" ++ b)
        preamble.length = some preamble.length := by
      rw [hbody, find_of_append, find_at_prefix_zero _ _ (List.prefix_append _ _)]
      simp
    have hltp : preamble.length
        < (preamble ++ ((r :: rs).map (lit "--" ++ b ++ ·)).flatten).length := by
      rw [hbody]
      have := delimiter_length b
      simp only [List.length_append] at this ⊢
      omega
    have hsame : parse_loop fs (preamble ++ ((r :: rs).map (lit "--" ++ b ++ ·)).flatten)
        (lit "--" ++ b) (n + 1) 0 st
        = parse_loop fs (preamble ++ ((r :: rs).map (lit "--" ++ b ++ ·)).flatten)
            (lit "--" ++ b) (n + 1) preamble.length st := by
      rw [parse_loop, parse_loop]
      simp only [hlt, hltp, if_true, hf0, hfp]
    unfold parse_multipart_form
    simp only [hn, hsame, h1]

theorem parse_part_no_blank_line (fs : Nat → SaveOutcome) (part : Str) (st : ParseState)
    (h : ¬ lit "\r\n\r\n" <:+: part) : parse_part fs part st = st := by
  rw [parse_part_eq, find_zero, (find_at_eq_none_iff _ _).mpr h]

/-! ### A body with the content field only, for any boundary without carriage return -/

theorem delimiter_not_infix_cons (b X : Str) (c : Nat) (hc : c ≠ 45)
    (h : ¬ (lit "--" ++ b) <:+: X) : ¬ (lit "--" ++ b) <:+: c :: X := by
  intro hi
  rcases List.infix_cons_iff.mp hi with hp | hi
  · have h2 : lit "--" ++ b = 45 :: (45 :: b) := by
      have : lit "--" = [45, 45] := by decide
      rw [this]; rfl
    rw [h2, List.cons_prefix_cons] at hp
    exact hc hp.1.symm
  · exact h hi

theorem delimiter_not_infix_dropLast (b : Str) :
    ¬ (lit "--" ++ b) <:+: (lit "--" ++ b).dropLast := by
  apply not_infix_of_length_lt
  have := delimiter_length b
  rw [List.length_dropLast]
  omega

theorem delimiter_not_in_content_region (b t : Str) (hcr : 13 ∉ b)
    (ht : ¬ (lit "--" ++ b) <:+: t) :
    ¬ (lit "--" ++ b) <:+: content_region t ++ (lit "--" ++ b).dropLast := by
  have e : content_region t ++ (lit "--" ++ b).dropLast
      = [] ++ 13 :: ((10 :: lit "Content-Disposition: form-data; name=\"content\"") ++ 13 ::
          ([10] ++ 13 :: ((10 :: t) ++ 13 :: (10 :: (lit "--" ++ b).dropLast)))) := by
    simp only [content_region, CRLF, List.append_assoc, List.cons_append, List.nil_append]
  have h13 := delim_not_mem b 13 (by decide) hcr
  have hlen := delimiter_length b
  rw [e]
  apply not_infix_sep _ _ _ 13 h13 (not_infix_of_length_lt _ _ (by simp only [List.length_nil]; omega))
  apply not_infix_sep _ _ _ 13 h13 (delim_not_infix_of_no_dashes b _ (by decide))
  apply not_infix_sep _ _ _ 13 h13
    (not_infix_of_length_lt _ _ (by simp only [List.length_singleton]; omega))
  exact not_infix_sep _ _ _ 13 h13 (delimiter_not_infix_cons b t 10 (by decide) ht)
    (delimiter_not_infix_cons b _ 10 (by decide) (delimiter_not_infix_dropLast b))

theorem loop_parts_within (body D : Str) (fuel : Nat) :
    ∀ pos, ∀ p ∈ loop_parts body D fuel pos, p <:+: body.drop pos := by
  induction fuel with
  | zero => intro pos p hp; simp [loop_parts] at hp
  | succ fuel ih =>
    intro pos p hp
    unfold loop_parts at hp
    split at hp
    · cases hf : find body D pos with
      | none => rw [hf] at hp; simp at hp
      | some start0 =>
        rw [hf] at hp
        simp only [List.mem_cons] at hp
        have hb := find_bounds body D pos start0 hf
        have hend : start0 + D.length
            ≤ (find body D (start0 + D.length)).getD body.length := by
          cases hf2 : find body D (start0 + D.length) with
          | none => simp only [Option.getD_none]; omega
          | some e =>
            have := find_bounds body D _ e hf2
            simp only [Option.getD_some]
            omega
        rcases hp with rfl | hp
        · unfold substr
          exact (List.take_prefix _ _).isInfix.trans
            (List.drop_suffix_drop_left body (by omega)).isInfix
        · exact (ih _ p hp).trans (List.drop_suffix_drop_left body (by omega)).isInfix
    · simp at hp

theorem foldl_parse_part_no_blank_line (fs : Nat → SaveOutcome) (parts : List Str)
    (h : ∀ p ∈ parts, ¬ lit "\r\n\r\n" <:+: p) :
    ∀ st : ParseState, parts.foldl (fun s p => parse_part fs p s) st = st := by
  induction parts with
  | nil => intro st; rfl
  | cons p ps ih =>
    intro st
    rw [List.foldl_cons, parse_part_no_blank_line fs p st (h p (List.mem_cons_self _ _)),
      ih (fun q hq => h q (List.mem_cons_of_mem _ hq))]

/-- The loop leaves the state as it is when no blank line occurs from `pos` on. -/
theorem parse_loop_no_blank_line (fs : Nat → SaveOutcome) (body D : Str) (hD : 1 ≤ D.length)
    (fuel pos : Nat) (st : ParseState) (hfuel : body.length ≤ pos + fuel)
    (h : ¬ lit "\r\n\r\n" <:+: body.drop pos) :
    parse_loop fs body D fuel pos st = .ok st := by
  obtain ⟨st1, h1⟩ := parse_loop_ok fs body D hD fuel pos st hfuel
  rw [h1, parse_loop_eq_foldl fs body D fuel pos st st1 h1,
    foldl_parse_part_no_blank_line fs _ (fun p hp hi => h (hi.trans (loop_parts_within body D fuel pos p hp)))]

theorem closing_no_blank_line (b : Str) (hcr : 13 ∉ b) :
    ¬ lit "\r\n\r\n" <:+: (lit "--" ++ b ++ lit "--") ++ 13 :: [10] := by
  intro h
  have hA : 13 ∉ lit "--" ++ b ++ lit "--" := by
    intro hm
    rcases List.mem_append.mp hm with hm | hm
    · exact delim_not_mem b 13 (by decide) hcr hm
    · exact absurd hm (by decide)
  rcases infix_append_cons _ _ _ 13 h with h | h | ⟨k, hk, hg, hs, hp⟩
  · exact not_infix_of_mem_not_mem _ _ 13 (by decide) hA h
  · exact absurd h (by decide)
  · have hlen : (lit "\r\n\r\n").length = 4 := by decide
    rw [hlen] at hk
    have hk2 : k = 0 ∨ k = 2 := by
      interval_cases k <;> first | (left; rfl) | (right; rfl) | (exact absurd hg (by decide))
    rcases hk2 with rfl | rfl
    · exact absurd hp (by decide)
    · apply hA
      apply hs.subset
      decide

/-- The parser on a body with the content field only. -/
theorem parse_multipart_form_content_only (fs : Nat → SaveOutcome) (b t : Str)
    (hcr : 13 ∉ b) (hne : t ≠ []) (ht : ¬ (lit "--" ++ b) <:+: t) :
    parse_multipart_form fs (content_only_body b t) b ⟨[], [], 0⟩
      = .ok (true, ⟨t, [], 0⟩) := by
  have hbody : content_only_body b t
      = [] ++ ((lit "--" ++ b) ++ (content_region t ++ ((lit "--" ++ b) ++ (lit "--" ++ CRLF)))) := by
    simp only [content_only_body, content_region, List.append_assoc, List.nil_append]
  have hD := delimiter_ne_nil b
  have hDl := delimiter_length b
  obtain ⟨n, hn⟩ : ∃ n, (content_only_body b t).length = n + 1 := by
    refine ⟨(content_only_body b t).length - 1, ?_⟩
    rw [hbody]
    simp only [List.length_append, List.length_nil] at hDl ⊢
    omega
  have hstep := parse_loop_step fs (lit "--" ++ b) [] (content_region t)
    ((lit "--" ++ b) ++ (lit "--" ++ CRLF)) n ⟨[], [], 0⟩ hD
    (Or.inr (List.prefix_append _ _)) (delimiter_not_in_content_region b t hcr ht)
  rw [← hbody, parse_part_content_region] at hstep
  have hdrop : (content_only_body b t).drop ([] ++ (lit "--" ++ b) ++ content_region t).length
      = (lit "--" ++ b ++ lit "--") ++ 13 :: [10] := by
    have e : content_only_body b t
        = ([] ++ (lit "--" ++ b) ++ content_region t) ++ ((lit "--" ++ b ++ lit "--") ++ 13 :: [10]) := by
      rw [hbody]
      simp only [List.append_assoc, List.nil_append, CRLF]
    conv_lhs => rw [e]
    rw [List.drop_left]
  have htail := parse_loop_no_blank_line fs (content_only_body b t) (lit "--" ++ b)
    (by omega) n ([] ++ (lit "--" ++ b) ++ content_region t).length
    { content := t, image_files := [], saves := 0 }
    (by
      rw [hn]
      simp only [List.length_append, List.length_nil] at hDl ⊢
      omega)
    (by rw [hdrop]; exact closing_no_blank_line b hcr)
  have hloop : parse_loop fs (content_only_body b t) (lit "--" ++ b)
      (content_only_body b t).length 0 ⟨[], [], 0⟩
      = .ok { content := t, image_files := [], saves := 0 } := by
    rw [hn]
    have h0 : ([] : Str).length = 0 := rfl
    rw [h0] at hstep
    rw [hstep]
    exact htail
  unfold parse_multipart_form
  simp only [hloop]
  simp [isEmpty_eq_false_of_ne_nil t hne]

/-! ### Static file paths -/

theorem split_slash_ne_nil (s : Str) : split_slash s ≠ [] := by
  induction s with
  | nil => simp [split_slash]
  | cons c s ih =>
    unfold split_slash
    split
    · simp
    · split <;> simp

/-- The error envelope is an object with the fields `status` and `message`, the message
being the JSON string literal of the text. -/
theorem create_error_response_eq (sc : Bool) (message : Str) :
    create_error_response sc message
      = lit "\x7b\"status\":\"error\",\"message\":" ++ json_field sc message ++ lit "\x7d" := by
  simp [create_error_response, json_field, lit, utf8_encode]

/-- The success envelope of non-empty data is an object with the fields `status` and
`data`. -/
theorem create_success_response_of_ne_nil (data : Str) (h : data ≠ []) :
    create_success_response data
      = lit "\x7b\"status\":\"success\",\"data\":" ++ data ++ lit "\x7d" := by
  simp [create_success_response, isEmpty_eq_false_of_ne_nil data h]

theorem error_body_mem (sc : Bool) (l : List Str) (m : Str) (hm : m ∈ l) :
    ∃ message ∈ l, create_error_response sc m
      = lit "\x7b\"status\":\"error\",\"message\":" ++ json_field sc message ++ lit "\x7d" :=
  ⟨m, hm, create_error_response_eq sc m⟩

theorem post_json_ne_nil (sc : Bool) (post : Post) : post_json sc post ≠ [] := by
  simp [post_json, lit, utf8_encode]

/-! ### The store under the three handlers -/

theorem loop_cut_bounds (body D : Str) (pos start end_ : Nat)
    (h : loop_cut body D pos = some (start, end_)) :
    pos + D.length ≤ start ∧ start ≤ end_ ∧ end_ ≤ body.length := by
  unfold loop_cut at h
  cases hf : find body D pos with
  | none => rw [hf] at h; simp at h
  | some start0 =>
    rw [hf] at h
    simp only [Option.some.injEq, Prod.mk.injEq] at h
    obtain ⟨h1, h2⟩ := h
    have hb := find_bounds body D pos start0 hf
    cases hf2 : find body D (start0 + D.length) with
    | none =>
      rw [hf2] at h2
      simp only [Option.getD_none] at h2
      omega
    | some e =>
      rw [hf2] at h2
      simp only [Option.getD_some] at h2
      have hb2 := find_bounds body D _ e hf2
      omega

/-- One iteration of the model of the loop, in terms of `loop_cut`. -/
theorem parse_loop_succ (fs : Nat → SaveOutcome) (body D : Str) (bound pos : Nat)
    (st : ParseState) (hlt : pos < body.length) :
    parse_loop fs body D (bound + 1) pos st
      = match loop_cut body D pos with
        | none => .ok st
        | some cut =>
          parse_loop fs body D bound cut.2
            (parse_part fs (substr body cut.1 (cut.2 - cut.1)) st) := by
  conv_lhs => unfold parse_loop
  unfold loop_cut
  simp only [hlt, if_true]
  cases find body D pos <;> rfl

theorem loop_iterations_le (body D : Str) (hD : 1 ≤ D.length) (bound : Nat) :
    ∀ pos, loop_iterations body D bound pos ≤ body.length - pos := by
  induction bound with
  | zero => intro pos; simp [loop_iterations]
  | succ bound ih =>
    intro pos
    unfold loop_iterations
    by_cases hlt : pos < body.length
    · simp only [hlt, if_true]
      cases hc : loop_cut body D pos with
      | none => simp only; omega
      | some cut =>
        simp only
        have hb := loop_cut_bounds body D pos cut.1 cut.2 hc
        have := ih cut.2
        omega
    · simp [hlt]

/-- Iterations beyond `body.length - pos` are never used by the model of the loop. -/
theorem parse_loop_more_fuel (fs : Nat → SaveOutcome) (body D : Str) (hD : 1 ≤ D.length)
    (k fuel : Nat) :
    ∀ pos st, body.length ≤ pos + fuel →
      parse_loop fs body D (fuel + k) pos st = parse_loop fs body D fuel pos st := by
  induction fuel with
  | zero =>
    intro pos st h
    rw [parse_loop_done fs body D _ pos st (by omega), parse_loop_done fs body D _ pos st (by omega)]
  | succ fuel ih =>
    intro pos st h
    by_cases hlt : pos < body.length
    · rw [Nat.add_right_comm, parse_loop_succ fs body D _ pos st hlt,
        parse_loop_succ fs body D _ pos st hlt]
      cases hc : loop_cut body D pos with
      | none => rfl
      | some cut =>
        simp only
        have hb := loop_cut_bounds body D pos cut.1 cut.2 hc
        exact ih cut.2 _ (by omega)
    · rw [parse_loop_done fs body D _ pos st (by omega),
        parse_loop_done fs body D _ pos st (by omega)]

theorem loop_iterations_more (body D : Str) (hD : 1 ≤ D.length) (k bound : Nat) :
    ∀ pos, body.length ≤ pos + bound →
      loop_iterations body D (bound + k) pos = loop_iterations body D bound pos := by
  induction bound with
  | zero =>
    intro pos h
    have hlt : ¬ pos < body.length := by omega
    cases k <;> simp [loop_iterations, hlt]
  | succ bound ih =>
    intro pos h
    rw [Nat.add_right_comm]
    unfold loop_iterations
    by_cases hlt : pos < body.length
    · simp only [hlt, if_true]
      cases hc : loop_cut body D pos with
      | none => rfl
      | some cut =>
        simp only
        have hb := loop_cut_bounds body D pos cut.1 cut.2 hc
        rw [ih cut.2 (by omega)]
    · simp [hlt]

/-! ### The content type of a stored upload -/

/-- The type `mime_type` gives to a path whose text from the last dot on is, in lowercase,
an accepted extension `L`, is the type it gives to `L`. -/
theorem mime_type_of_lower_ext (path : Str) (n : Nat) (L : Str)
    (hfind : find_last_of 46 path = some n)
    (hE : (substr_from path n).map tolower = L) (hL : L ∈ valid_extensions) :
    mime_type path = mime_type L := by
  have key : ∀ L ∈ valid_extensions, mime_type (46 :: L.tail) = mime_type L
      ∧ (46 :: L.tail).map tolower = L ∧ find_last_of 46 (46 :: L.tail) = some 0 := by
    decide
  obtain ⟨k1, k2, k3⟩ := key L hL
  rw [← k1]
  simp only [substr_from] at hE
  simp only [mime_type, iequals, hfind, hE, k3, substr_from, List.drop_zero, k2]

/-- The path of a stored upload with an accepted name has the content type of the accepted
extension. -/
theorem mime_type_upload_path (timestamp : Int) (filename : Str)
    (hv : validate_image_format filename = true) :
    mime_type (upload_path timestamp filename)
      = mime_type ((file_extension filename).map tolower) := by
  obtain ⟨hL, _⟩ := file_extension_of_valid filename hv
  obtain ⟨_, he⟩ := file_extension_spec filename
  rcases he with ⟨he, _⟩ | ⟨rest, he, hrest⟩
  · rw [he] at hL
    exact absurd hL (by decide)
  · have hp : upload_path timestamp filename
        = (lit "uploads/img_" ++ to_string timestamp) ++ 46 :: rest := by
      rw [upload_path_eq, he]
    have hfind := find_last_of_append_cons 46 (lit "uploads/img_" ++ to_string timestamp) rest
      hrest
    rw [← hp] at hfind
    apply mime_type_of_lower_ext _ _ _ hfind _ hL
    rw [he, hp]
    simp [substr_from]

/-! ### Case folding -/

theorem lookup_eq_none_of_lt (l : List (Nat × Nat)) (c : Nat) (h : ∀ p ∈ l, p.1 < c) :
    l.lookup c = none := by
  induction l with
  | nil => rfl
  | cons p l ih =>
    have hp := h p (List.mem_cons_self _ _)
    have hne : (c == p.1) = false := by
      rw [beq_eq_false_iff_ne]
      omega
    rw [List.lookup_cons, hne]
    exact ih (fun q hq => h q (List.mem_cons_of_mem _ hq))

/-- The function `::tolower` of the code is ASCII lowercasing. -/
theorem tolower_eq_ascii_lower (c : Nat) : tolower c = ascii_lower c := by
  by_cases h : c < 91
  · have key : ∀ c < 91, tolower c = ascii_lower c := by decide
    exact key c h
  · have h1 : tolower c = c := by
      unfold tolower
      split <;> omega
    have h2 : ((lit "ABCDEFGHIJKLMNOPQRSTUVWXYZ").zip
        (lit "abcdefghijklmnopqrstuvwxyz")).lookup c = none := by
      apply lookup_eq_none_of_lt
      have key : ∀ p ∈ (lit "ABCDEFGHIJKLMNOPQRSTUVWXYZ").zip
          (lit "abcdefghijklmnopqrstuvwxyz"), p.1 < 91 := by decide
      intro p hp
      have := key p hp
      omega
    rw [h1, ascii_lower, h2]
    rfl

theorem map_tolower_eq (s : Str) : s.map tolower = s.map ascii_lower :=
  List.map_congr_left (fun c _ => tolower_eq_ascii_lower c)

/-! ### The text of a view response -/

theorem intercalate_cons_eq (sep a : Str) (rest : List Str) :
    sep.intercalate (a :: rest) = a ++ (rest.map (sep ++ ·)).flatten := by
  induction rest generalizing a with
  | nil => simp [List.intercalate]
  | cons b rest ih =>
    have := ih b
    simp only [List.intercalate, List.intersperse, List.flatten_cons, List.map_cons] at this ⊢
    rw [this]
    simp only [List.append_assoc]

theorem images_json_from (sc : Bool) (paths : List Str) (n : Nat) (hn : 0 < n) :
    ((paths.enumFrom n).map (fun x =>
        (if x.1 > 0 then lit "," else []) ++ lit "\"" ++ escape_json_string sc x.2
          ++ lit "\"")).flatten
      = ((paths.map (json_field sc)).map (lit "," ++ ·)).flatten := by
  induction paths generalizing n with
  | nil => rfl
  | cons p paths ih =>
    have hq : lit "\"" = [34] := by decide
    rw [List.enumFrom_cons, List.map_cons, List.flatten_cons, ih (n + 1) (by omega),
      List.map_cons, List.map_cons, List.flatten_cons]
    simp only [gt_iff_lt, hn, if_true, json_field, hq, List.append_assoc]

/-- The `images` array holds the JSON string literals of the paths, separated by commas. -/
theorem images_json_eq (sc : Bool) (paths : List Str) :
    images_json sc paths = (lit ",").intercalate (paths.map (json_field sc)) := by
  cases paths with
  | nil => rfl
  | cons p paths =>
    have hq : lit "\"" = [34] := by decide
    rw [List.map_cons, intercalate_cons_eq]
    unfold images_json
    rw [List.enum, List.enumFrom_cons, List.map_cons, List.flatten_cons,
      images_json_from sc paths (0 + 1) (by omega)]
    simp only [gt_iff_lt, lt_self_iff_false, if_false, json_field, hq, List.nil_append,
      List.append_assoc]

theorem ok_response_body (content : Str) : (ok_response content).body = content := rfl

theorem ok_response_status (content : Str) : (ok_response content).status = 200 := rfl

/-- The body of a successful view, written out. -/
theorem view_body_eq (sc : Bool) (q : Post) :
    (ok_response (create_success_response (post_json sc q))).body
      = lit "\x7b\"status\":\"success\",\"data\":\x7b\"id\":" ++ json_field sc q.id
          ++ lit ",\"content\":" ++ json_field sc q.content
          ++ lit ",\"created_at\":" ++ json_field sc q.created_at
          ++ lit ",\"view_count\":" ++ to_string q.view_count
          ++ lit ",\"like_count\":" ++ to_string q.like_count
          ++ lit ",\"images\":[" ++ (lit ",").intercalate (q.image_paths.map (json_field sc))
          ++ lit "]\x7d\x7d" := by
  rw [ok_response_body, create_success_response_of_ne_nil _ (post_json_ne_nil sc q), post_json, images_json_eq]
  simp [json_field, lit, utf8_encode]

/-! ### Ids and stored paths in JSON -/

/-- Once the boundary has been read from the header, `handle_api_submit` answers by the
first failing check: empty or absent boundary, parse without content, trimmed content
shorter than 50 bytes, more than 9 stored image paths, failed `save_post`. -/
theorem submit_validation_order (sc : Bool) (env : Env) (dm : DatabaseManager)
    (req : Request) (boundary : Str)
    (hb : extract_boundary req.content_type = .ok boundary) :
    ∃ st o,
      parse_multipart_form env.fs req.body boundary ⟨[], [], 0⟩ = .ok (!st.content.isEmpty, st)
      ∧ handle_api_submit sc env dm req = .ok o
      ∧ (boundary = [] →
          o.response = bad_request sc (lit "缺少multipart boundary")
            ∧ o.response.status = 400 ∧ o.save_post_calls = [] ∧ o.db = dm)
      ∧ (boundary ≠ [] → st.content = [] →
          o.response = bad_request sc (lit "解析表单数据失败")
            ∧ o.response.status = 400 ∧ o.save_post_calls = [] ∧ o.db = dm)
      ∧ (boundary ≠ [] → st.content ≠ [] → (trim st.content).length < 50 →
          o.response = bad_request sc (lit "评论内容不能少于50字")
            ∧ o.response.status = 400 ∧ o.save_post_calls = [] ∧ o.db = dm)
      ∧ (boundary ≠ [] → st.content ≠ [] → 50 ≤ (trim st.content).length →
          9 < st.image_files.length →
          o.response = bad_request sc (lit "最多只能上传9张图片")
            ∧ o.response.status = 400 ∧ o.save_post_calls = [] ∧ o.db = dm)
      ∧ (boundary ≠ [] → st.content ≠ [] → 50 ≤ (trim st.content).length →
          st.image_files.length ≤ 9 →
          o.save_post_calls = [submitted_post env st]
            ∧ o.db = (save_post dm env.now (submitted_post env st)).2
            ∧ ((save_post dm env.now (submitted_post env st)).1 = false →
                o.response = server_error sc (lit "保存评论失败") ∧ o.response.status = 500)
            ∧ ((save_post dm env.now (submitted_post env st)).1 = true →
                o.response = ok_response (create_success_response
                    (lit "\x7b\"id\":\"" ++ generate env.draw ++ lit "\"\x7d"))
                  ∧ o.response.status = 200)) := by
  obtain ⟨st, hp⟩ := parse_multipart_form_ok env.fs req.body boundary ⟨[], [], 0⟩
  refine ⟨st, _, hp, handle_api_submit_cases sc env dm req boundary st hb hp, ?_, ?_, ?_, ?_, ?_⟩
  · intro h1
    simp [h1, bad_request, mk_response]
  · intro h1 h2
    simp [h1, h2, bad_request, mk_response]
  · intro h1 h2 h3
    simp [h1, h2, h3, bad_request, mk_response]
  · intro h1 h2 h3 h4
    have h3' : ¬ (trim st.content).length < 50 := by omega
    simp [h1, h2, h3', h4, bad_request, mk_response]
  · intro h1 h2 h3 h4
    have h3' : ¬ (trim st.content).length < 50 := by omega
    have h4' : ¬ st.image_files.length > 9 := by omega
    simp only [h1, h2, h3', h4', if_false]
    by_cases h5 : (save_post dm env.now (submitted_post env st)).1 = false
    · simp [h5, server_error, mk_response]
    · simp only [Bool.not_eq_false] at h5
      simp [h5, ok_response, mk_response]

theorem handle_api_submit_undefined (sc : Bool) (env : Env) (dm : DatabaseManager)
    (req : Request) (h : extract_boundary req.content_type = .error .undefined_behaviour) :
    handle_api_submit sc env dm req = .error .undefined_behaviour := by
  unfold handle_api_submit
  rw [h]

/-- C1 (fails where plain `char` is signed): for the UTF-8 bytes `E8 AF 84` of the character
`评` the test `c < 0x20` holds for each byte, `escape_json_string` emits a backslash, `u` and
the eight digits `ffffffe8` (then the same with `ffffffaf` and `ffffff84`), and a JSON
decoder reads the literal back as U+FFFF followed by the text `ffe8`, and so on: not the
submitted bytes. -/
theorem c1_escape_json_string_signed_char_high_bytes :
    escape_json_string true (lit "评") = lit "\\uffffffe8\\uffffffaf\\uffffff84"
      ∧ json_decode_string (json_field true (lit "评"))
          = some ([239, 191, 191] ++ lit "ffe8" ++ [239, 191, 191] ++ lit "ffaf"
              ++ [239, 191, 191] ++ lit "ff84")
      ∧ json_decode_string (json_field true (lit "评")) ≠ some (lit "评") := by
  decide

/-- C2 (fails): for the id `tiger4` and an empty store `handle_api_view` answers 404, but
`not_found` puts `资源不存在: ` in front of the text it is given, so the body is not the JSON
text of the claim; with an unsigned `char` it is the text with the message
`资源不存在: 评论不存在`. -/
theorem c2_view_not_found_body_is_prefixed :
    (∀ sc : Bool,
        (handle_api_view sc ⟨some ⟨[], []⟩⟩ (lit "tiger4")).response.status = 404
        ∧ (handle_api_view sc ⟨some ⟨[], []⟩⟩ (lit "tiger4")).response.body
            = create_error_response sc (lit "资源不存在: " ++ lit "评论不存在")
        ∧ (handle_api_view sc ⟨some ⟨[], []⟩⟩ (lit "tiger4")).response.body
            ≠ lit "\x7b\"status\":\"error\",\"message\":\"评论不存在\"\x7d")
      ∧ (handle_api_view false ⟨some ⟨[], []⟩⟩ (lit "tiger4")).response.body
          = lit "\x7b\"status\":\"error\",\"message\":\"资源不存在: 评论不存在\"\x7d" := by
  refine ⟨fun sc => ?_, by decide⟩
  cases sc <;> decide

/-- C3: when the boundary was read from the header and the content that
`parse_multipart_form` leaves has fewer than 50 bytes after `trim`, `handle_api_submit`
answers 400, hands no post to `save_post` and returns the database as it was. -/
theorem c3_short_content_is_rejected (sc : Bool) (env : Env) (dm : DatabaseManager)
    (req : Request) (boundary : Str) (parsed : Bool) (st : ParseState)
    (hb : extract_boundary req.content_type = .ok boundary)
    (hp : parse_multipart_form env.fs req.body boundary ⟨[], [], 0⟩ = .ok (parsed, st))
    (hshort : (trim st.content).length < 50) :
    ∃ o, handle_api_submit sc env dm req = .ok o
      ∧ o.response.status = 400 ∧ o.save_post_calls = [] ∧ o.db = dm := by
  rw [handle_api_submit_cases sc env dm req boundary st hb
    (parse_multipart_form_flag _ _ _ _ _ _ hp)]
  refine ⟨_, rfl, ?_⟩
  by_cases h1 : boundary = []
  · simp [h1, bad_request, mk_response]
  · by_cases h2 : st.content = []
    · simp [h1, h2, bad_request, mk_response]
    · simp [h1, h2, hshort, bad_request, mk_response]

theorem c3_short_content_is_rejected_witness :
    (extract_boundary
        (submit_request (lit "XyZ") (lit " \t" ++ List.replicate 49 97 ++ lit "\r\n ") []).content_type
        = .ok (lit "XyZ")
      ∧ parse_multipart_form demo_env.fs
          (submit_request (lit "XyZ") (lit " \t" ++ List.replicate 49 97 ++ lit "\r\n ") []).body
          (lit "XyZ") ⟨[], [], 0⟩
        = .ok (true, ⟨lit " \t" ++ List.replicate 49 97 ++ lit "\r\n ", [], 0⟩)
      ∧ (trim (lit " \t" ++ List.replicate 49 97 ++ lit "\r\n ")).length < 50)
    ∧ ∃ o, handle_api_submit true demo_env ⟨some demo_tables⟩
          (submit_request (lit "XyZ") (lit " \t" ++ List.replicate 49 97 ++ lit "\r\n ") [])
          = .ok o
        ∧ o.response.status = 400 ∧ o.save_post_calls = [] ∧ o.db = ⟨some demo_tables⟩ :=
  have h1 : extract_boundary
      (submit_request (lit "XyZ") (lit " \t" ++ List.replicate 49 97 ++ lit "\r\n ") []).content_type
      = .ok (lit "XyZ") := by decide
  have h2 : parse_multipart_form demo_env.fs
      (submit_request (lit "XyZ") (lit " \t" ++ List.replicate 49 97 ++ lit "\r\n ") []).body
      (lit "XyZ") ⟨[], [], 0⟩
      = .ok (true, ⟨lit " \t" ++ List.replicate 49 97 ++ lit "\r\n ", [], 0⟩) := by decide
  have h3 : (trim (lit " \t" ++ List.replicate 49 97 ++ lit "\r\n ")).length < 50 := by decide
  ⟨⟨h1, h2, h3⟩,
    c3_short_content_is_rejected true demo_env ⟨some demo_tables⟩ _ (lit "XyZ") true
      ⟨lit " \t" ++ List.replicate 49 97 ++ lit "\r\n ", [], 0⟩ h1 h2 h3⟩

/-- C6: in a store (ids unique, as the primary key makes them) that holds a post with
`like_count` 0 under a non-empty id, two successive `handle_api_like` calls both answer 200
and the following `handle_api_view` answers 200 with a body that is the JSON text of that
post with `"like_count":2`: its id, content, creation time and images as they were, and
its `view_count` as it was or one more; and every like, on any store, leaves every post as
it was except for adding one to the `like_count` of the post it names. -/
theorem c6_like_twice_then_view (sc : Bool) (t : Tables) (id : Str) (p : Post)
    (hpk : (t.posts.map PostRow.id).Nodup) (hid : id ≠ [])
    (hp : get_post ⟨some t⟩ id = some p) (h0 : p.like_count = 0) :
    (handle_api_like sc ⟨some t⟩ id).response.status = 200
      ∧ (handle_api_like sc (handle_api_like sc ⟨some t⟩ id).db id).response.status = 200
      ∧ (handle_api_view sc
            (handle_api_like sc (handle_api_like sc ⟨some t⟩ id).db id).db id).response.status
          = 200
      ∧ (∃ v, (v = p.view_count ∨ v = p.view_count + 1)
          ∧ (handle_api_view sc
              (handle_api_like sc (handle_api_like sc ⟨some t⟩ id).db id).db id).response.body
            = lit "\x7b\"status\":\"success\",\"data\":\x7b\"id\":" ++ json_field sc p.id
                ++ lit ",\"content\":" ++ json_field sc p.content
                ++ lit ",\"created_at\":" ++ json_field sc p.created_at
                ++ lit ",\"view_count\":" ++ to_string v
                ++ lit ",\"like_count\":" ++ lit "2"
                ++ lit ",\"images\":["
                ++ (lit ",").intercalate (p.image_paths.map (json_field sc))
                ++ lit "]\x7d\x7d")
      ∧ (∀ (dm : DatabaseManager) (j j' : Str),
          get_post (handle_api_like sc dm j).db j' = get_post dm j'
            ∨ (j' = j ∧ ∃ q, get_post dm j' = some q
                ∧ get_post (handle_api_like sc dm j).db j'
                  = some { q with like_count := q.like_count + 1 })) := by
  have hlt0 : p.like_count < INT_MAX := by rw [h0]; decide
  have e1 := handle_api_like_ok sc t id p hpk hid hp hlt0
  have hp1 : get_post ⟨some { t with posts := t.posts.map (bump_like id) }⟩ id
      = some { p with like_count := p.like_count + 1 } := by
    rw [get_post_after_like, hp]; simp
  have hpk1 : (({ t with posts := t.posts.map (bump_like id) } : Tables).posts.map
      PostRow.id).Nodup := by
    have : (t.posts.map (bump_like id)).map PostRow.id = t.posts.map PostRow.id := by
      rw [List.map_map]
      apply List.map_congr_left
      intro r _
      exact bump_like_id id r
    simpa [this] using hpk
  have e2 := handle_api_like_ok sc { t with posts := t.posts.map (bump_like id) } id
    { p with like_count := p.like_count + 1 } hpk1 hid hp1 (by simp only [h0]; decide)
  have hp2 : get_post ⟨some { t with posts := (t.posts.map (bump_like id)).map (bump_like id) }⟩ id
      = some { p with like_count := p.like_count + 1 + 1 } := by
    have := get_post_after_like { t with posts := t.posts.map (bump_like id) } id id
    rw [hp1] at this
    simpa using this
  have h2 : to_string ((0 : Int) + 1 + 1) = lit "2" := by decide
  refine ⟨by rw [e1]; rfl, by rw [e1, e2]; rfl, ?_, ?_,
    fun dm j j' => handle_api_like_frame sc dm j j'⟩
  · rw [e1, e2]
    obtain ⟨q, _, hresp, _⟩ := handle_api_view_existing sc _ id _ hid hp2
    rw [hresp]
    rfl
  · rw [e1, e2]
    obtain ⟨q, _, hresp, hq⟩ := handle_api_view_existing sc _ id _ hid hp2
    rw [hresp, view_body_eq]
    rcases hq with rfl | rfl
    · exact ⟨p.view_count, Or.inl rfl, by simp only [h0, h2]⟩
    · exact ⟨p.view_count + 1, Or.inr rfl, by simp only [h0, h2]⟩

theorem c6_like_twice_then_view_witness :
    ((demo_tables.posts.map PostRow.id).Nodup ∧ lit "tiger42" ≠ []
      ∧ get_post ⟨some demo_tables⟩ (lit "tiger42")
          = some ⟨lit "tiger42", lit "second", [lit "uploads/img_1.png"], lit "2024-01-02", 7, 0⟩)
    ∧ (handle_api_view true
          (handle_api_like true (handle_api_like true ⟨some demo_tables⟩ (lit "tiger42")).db
            (lit "tiger42")).db (lit "tiger42")).response.body
        = lit ("\x7b\"status\":\"success\",\"data\":\x7b\"id\":\"tiger42\",\"content\":\"second\","
            ++ "\"created_at\":\"2024-01-02\",\"view_count\":8,\"like_count\":2,"
            ++ "\"images\":[\"uploads/img_1.png\"]\x7d\x7d")
    ∧ (handle_api_like true ⟨some demo_tables⟩ (lit "tiger42")).response.status = 200
    ∧ (handle_api_like true (handle_api_like true ⟨some demo_tables⟩ (lit "tiger42")).db
          (lit "tiger42")).response.status = 200
    ∧ (handle_api_view true
          (handle_api_like true (handle_api_like true ⟨some demo_tables⟩ (lit "tiger42")).db
            (lit "tiger42")).db (lit "tiger42")).response.status = 200
    ∧ (∃ v, (v = 7 ∨ v = 7 + 1)
        ∧ (handle_api_view true
            (handle_api_like true (handle_api_like true ⟨some demo_tables⟩ (lit "tiger42")).db
              (lit "tiger42")).db (lit "tiger42")).response.body
          = lit "\x7b\"status\":\"success\",\"data\":\x7b\"id\":" ++ json_field true (lit "tiger42")
              ++ lit ",\"content\":" ++ json_field true (lit "second")
              ++ lit ",\"created_at\":" ++ json_field true (lit "2024-01-02")
              ++ lit ",\"view_count\":" ++ to_string v
              ++ lit ",\"like_count\":" ++ lit "2"
              ++ lit ",\"images\":["
              ++ (lit ",").intercalate ([lit "uploads/img_1.png"].map (json_field true))
              ++ lit "]\x7d\x7d")
    ∧ (∀ (dm : DatabaseManager) (j j' : Str),
        get_post (handle_api_like true dm j).db j' = get_post dm j'
          ∨ (j' = j ∧ ∃ q, get_post dm j' = some q
              ∧ get_post (handle_api_like true dm j).db j'
                = some { q with like_count := q.like_count + 1 })) :=
  have h1 : (demo_tables.posts.map PostRow.id).Nodup := by decide
  have h2 : lit "tiger42" ≠ [] := by decide
  have h3 : get_post ⟨some demo_tables⟩ (lit "tiger42")
      = some ⟨lit "tiger42", lit "second", [lit "uploads/img_1.png"], lit "2024-01-02", 7, 0⟩ := by
    decide
  ⟨⟨h1, h2, h3⟩, by decide,
    c6_like_twice_then_view true demo_tables (lit "tiger42") _ h1 h2 h3 rfl⟩

/-- C7: for a non-empty id without a row, `handle_api_view` and `handle_api_like` both
answer 404 and return the database exactly as it was. -/
theorem c7_missing_id_404_store_unchanged (sc : Bool) (dm : DatabaseManager) (id : Str)
    (hid : id ≠ []) (hmiss : no_row dm id) :
    (handle_api_view sc dm id).response.status = 404
      ∧ (handle_api_view sc dm id).db = dm
      ∧ (handle_api_like sc dm id).response.status = 404
      ∧ (handle_api_like sc dm id).db = dm := by
  have he : id.isEmpty = false := by
    cases id with
    | nil => exact absurd rfl hid
    | cons _ _ => rfl
  simp [handle_api_view, handle_api_like, he, increment_view_count_no_row dm id hmiss,
    increment_like_count_no_row dm id hmiss, get_post_no_row dm id hmiss, not_found,
    mk_response]

theorem c7_missing_id_404_store_unchanged_witness :
    (lit "tiger4" ≠ [] ∧ no_row ⟨some ⟨[⟨lit "apple1", lit "x", [], 3, 4⟩], []⟩⟩ (lit "tiger4"))
      ∧ (handle_api_view true ⟨some ⟨[⟨lit "apple1", lit "x", [], 3, 4⟩], []⟩⟩
            (lit "tiger4")).response.status = 404
      ∧ (handle_api_view true ⟨some ⟨[⟨lit "apple1", lit "x", [], 3, 4⟩], []⟩⟩ (lit "tiger4")).db
          = ⟨some ⟨[⟨lit "apple1", lit "x", [], 3, 4⟩], []⟩⟩
      ∧ (handle_api_like true ⟨some ⟨[⟨lit "apple1", lit "x", [], 3, 4⟩], []⟩⟩
            (lit "tiger4")).response.status = 404
      ∧ (handle_api_like true ⟨some ⟨[⟨lit "apple1", lit "x", [], 3, 4⟩], []⟩⟩ (lit "tiger4")).db
          = ⟨some ⟨[⟨lit "apple1", lit "x", [], 3, 4⟩], []⟩⟩ :=
  have h1 : lit "tiger4" ≠ [] := by decide
  have h2 : no_row ⟨some ⟨[⟨lit "apple1", lit "x", [], 3, 4⟩], []⟩⟩ (lit "tiger4") := by
    intro t ht
    cases ht
    decide
  ⟨⟨h1, h2⟩, c7_missing_id_404_store_unchanged true _ _ h1 h2⟩

/-- C8: `handle_request` follows the decision table. `POST /api/submit` is handled by
`handle_api_submit`; `GET` on a target under `/api/view/` by `handle_api_view`; `POST` on a
target under `/api/like/` by `handle_api_like`, both on the id cut out of the target; any
other target under `/api/` gets the 404 of `not_found`, whatever files exist; every target
not under `/api/` goes to `serve_file`, whatever the method. -/
theorem c8_handle_request_decision_table (sc : Bool) (env : Env) (dm : DatabaseManager)
    (req : Request) (doc_root : Str) :
    (req.target = lit "/api/submit" → req.method = Verb.post →
        handle_request sc env dm req doc_root = handle_api_submit sc env dm req)
      ∧ (starts_with req.target (lit "/api/view/") = true → req.method = Verb.get →
        handle_request sc env dm req doc_root
          = .ok (handle_api_view sc dm (extract_post_id_from_path req.target)))
      ∧ (starts_with req.target (lit "/api/like/") = true → req.method = Verb.post →
        handle_request sc env dm req doc_root
          = .ok (handle_api_like sc dm (extract_post_id_from_path req.target)))
      ∧ (starts_with req.target (lit "/api/") = true →
        ¬ (req.target = lit "/api/submit" ∧ req.method = Verb.post) →
        ¬ (starts_with req.target (lit "/api/view/") = true ∧ req.method = Verb.get) →
        ¬ (starts_with req.target (lit "/api/like/") = true ∧ req.method = Verb.post) →
        handle_request sc env dm req doc_root = .ok ⟨not_found sc req.target, dm, 0, []⟩
          ∧ (not_found sc req.target).status = 404)
      ∧ (starts_with req.target (lit "/api/") = false →
        handle_request sc env dm req doc_root = serve_file sc env dm req.target) := by
  refine ⟨?_, ?_, ?_, ?_, ?_⟩
  · intro ht hm
    have h1 : starts_with req.target (lit "/api/") = true := by rw [ht]; decide
    simp only [handle_request]
    rw [if_pos h1, if_pos ⟨ht, hm⟩]
  · intro ht hm
    have h1 : starts_with req.target (lit "/api/") = true := by
      unfold starts_with at *
      rw [List.isPrefixOf_iff_prefix] at *
      exact List.IsPrefix.trans (by decide) ht
    have h2 : ¬ (req.target = lit "/api/submit" ∧ req.method = Verb.post) := by
      intro e; rw [e.1] at ht; exact absurd ht (by decide)
    simp only [handle_request]
    rw [if_pos h1, if_neg h2, if_pos ⟨ht, hm⟩]
  · intro ht hm
    have h1 : starts_with req.target (lit "/api/") = true := by
      unfold starts_with at *
      rw [List.isPrefixOf_iff_prefix] at *
      exact List.IsPrefix.trans (by decide) ht
    have h2 : ¬ (req.target = lit "/api/submit" ∧ req.method = Verb.post) := by
      intro e; rw [e.1] at ht; exact absurd ht (by decide)
    have h3 : ¬ (starts_with req.target (lit "/api/view/") = true ∧ req.method = Verb.get) := by
      intro e; rw [hm] at e; exact absurd e.2 (by decide)
    simp only [handle_request]
    rw [if_pos h1, if_neg h2, if_neg h3, if_pos ⟨ht, hm⟩]
  · intro h1 h2 h3 h4
    refine ⟨?_, rfl⟩
    simp only [handle_request, h1, if_true]
    rw [if_neg h2, if_neg h3, if_neg h4]
  · intro h1
    simp [handle_request, h1]

/-- C9 (fails as stated): `GET /api/view/` yields the empty id, which `handle_api_view`
rejects with status 400. -/
theorem c9_view_root_target_is_400 :
    handle_request false demo_env ⟨some ⟨[], []⟩⟩ ⟨Verb.get, lit "/api/view/", [], []⟩ []
      = .ok ⟨bad_request false (lit "评论ID不能为空"), ⟨some ⟨[], []⟩⟩, 0, []⟩
    ∧ (bad_request false (lit "评论ID不能为空")).status = 400 := by
  decide

/-- C9 (amended): a `GET` on a target under `/api/view/` is answered with 200, 404 or 400:
400 exactly when the target ends with a slash (the id is then empty), otherwise 200 with
the full JSON of the stored post, or 404 when the id has no row. -/
theorem c9_view_status (sc : Bool) (env : Env) (dm : DatabaseManager) (req : Request)
    (doc_root : Str) (hm : req.method = Verb.get)
    (ht : starts_with req.target (lit "/api/view/") = true) :
    ∃ o, handle_request sc env dm req doc_root = .ok o
      ∧ (o.response.status = 200 ∨ o.response.status = 404 ∨ o.response.status = 400)
      ∧ (o.response.status = 400 ↔ req.target.getLast? = some 47)
      ∧ (o.response.status = 200 ↔
          ∃ post, get_post o.db (extract_post_id_from_path req.target) = some post
            ∧ req.target.getLast? ≠ some 47
            ∧ o.response.body = create_success_response (post_json sc post))
      ∧ (o.response.status = 404 ↔
          (get_post o.db (extract_post_id_from_path req.target) = none
            ∧ req.target.getLast? ≠ some 47)) := by
  have h1 : starts_with req.target (lit "/api/") = true := by
    unfold starts_with at *
    rw [List.isPrefixOf_iff_prefix] at *
    exact List.IsPrefix.trans (by decide) ht
  have h2 : ¬ (req.target = lit "/api/submit" ∧ req.method = Verb.post) := by
    intro e; rw [e.1] at ht; exact absurd ht (by decide)
  have hmem : 47 ∈ req.target := mem_of_starts_with_api _ _ (by decide) ht
  have hiff := extract_post_id_eq_nil_iff req.target hmem
  refine ⟨handle_api_view sc dm (extract_post_id_from_path req.target), ?_, ?_⟩
  · simp only [handle_request]
    rw [if_pos h1, if_neg h2, if_pos ⟨ht, hm⟩]
  · unfold handle_api_view
    by_cases hid : extract_post_id_from_path req.target = []
    · have hl := hiff.mp hid
      simp [hid, hl, bad_request, mk_response]
    · have hl : req.target.getLast? ≠ some 47 := fun e => hid (hiff.mpr e)
      have he : (extract_post_id_from_path req.target).isEmpty = false := by
        cases h : extract_post_id_from_path req.target with
        | nil => exact absurd h hid
        | cons _ _ => rfl
      simp only [he, Bool.false_eq_true, if_false]
      cases hg : get_post (increment_view_count dm (extract_post_id_from_path req.target)).2
          (extract_post_id_from_path req.target) with
      | none => simp [not_found, mk_response, hl, hg]
      | some post => simp [ok_response, mk_response, hl, hg]

theorem c9_view_status_witness :
    ((⟨Verb.get, lit "/api/view/a/b", [], []⟩ : Request).method = Verb.get
      ∧ starts_with (⟨Verb.get, lit "/api/view/a/b", [], []⟩ : Request).target
          (lit "/api/view/") = true)
    ∧ ∃ o, handle_request true demo_env ⟨none⟩ ⟨Verb.get, lit "/api/view/a/b", [], []⟩ []
          = .ok o
      ∧ (o.response.status = 200 ∨ o.response.status = 404 ∨ o.response.status = 400)
      ∧ (o.response.status = 400 ↔
          (⟨Verb.get, lit "/api/view/a/b", [], []⟩ : Request).target.getLast? = some 47)
      ∧ (o.response.status = 200 ↔
          ∃ post, get_post o.db (extract_post_id_from_path
                (⟨Verb.get, lit "/api/view/a/b", [], []⟩ : Request).target) = some post
            ∧ (⟨Verb.get, lit "/api/view/a/b", [], []⟩ : Request).target.getLast? ≠ some 47
            ∧ o.response.body = create_success_response (post_json true post))
      ∧ (o.response.status = 404 ↔
          (get_post o.db (extract_post_id_from_path
                (⟨Verb.get, lit "/api/view/a/b", [], []⟩ : Request).target) = none
            ∧ (⟨Verb.get, lit "/api/view/a/b", [], []⟩ : Request).target.getLast? ≠ some 47)) :=
  ⟨⟨rfl, by decide⟩,
    c9_view_status true demo_env ⟨none⟩ ⟨Verb.get, lit "/api/view/a/b", [], []⟩ [] rfl
      (by decide)⟩

/-- C10 (fails): for a submit request whose `Content-Type` header ends in `boundary=`, or in
`boundary=` and one double quote, the boundary is empty, and the claim's first row says the
answer is 400. The code calls `front()` or `back()` on the empty string before it tests
`boundary.empty()`, which is undefined behaviour, so no answer is determined. For every
request on which the extraction is defined the claim holds: the answer is decided by the
first failing check in the order empty or absent boundary (400), parse without content
(400), trimmed content shorter than 50 bytes (400 with the content-length message, whatever
the number of images), more than 9 stored image paths (400), failed `save_post` (500),
otherwise 200 with the drawn id; a post is handed to `save_post` only in the last two
cases, and in the first four the database is returned as it was. -/
theorem c10_empty_boundary_header_is_undefined :
    (∀ (sc : Bool) (env : Env) (dm : DatabaseManager) (method : Verb) (target body : Str),
        handle_api_submit sc env dm
            ⟨method, target, lit "multipart/form-data; boundary=", body⟩
          = .error .undefined_behaviour
        ∧ handle_api_submit sc env dm
            ⟨method, target, lit "multipart/form-data; boundary=\"", body⟩
          = .error .undefined_behaviour)
      ∧ handle_request false demo_env ⟨some demo_tables⟩
          ⟨Verb.post, lit "/api/submit", lit "multipart/form-data; boundary=", []⟩
          (lit "../frontend") = .error .undefined_behaviour
      ∧ extract_boundary (lit "multipart/form-data") = .ok []
      ∧ (handle_api_submit false demo_env ⟨some demo_tables⟩
            ⟨Verb.post, lit "/api/submit", lit "multipart/form-data", []⟩).map
          (fun o => o.response.status) = .ok 400
      ∧ ∀ (sc : Bool) (env : Env) (dm : DatabaseManager) (req : Request) (boundary : Str),
          extract_boundary req.content_type = .ok boundary →
          ∃ st o,
            parse_multipart_form env.fs req.body boundary ⟨[], [], 0⟩ = .ok (!st.content.isEmpty, st)
            ∧ handle_api_submit sc env dm req = .ok o
            ∧ (boundary = [] →
                o.response = bad_request sc (lit "缺少multipart boundary")
                  ∧ o.response.status = 400 ∧ o.save_post_calls = [] ∧ o.db = dm)
            ∧ (boundary ≠ [] → st.content = [] →
                o.response = bad_request sc (lit "解析表单数据失败")
                  ∧ o.response.status = 400 ∧ o.save_post_calls = [] ∧ o.db = dm)
            ∧ (boundary ≠ [] → st.content ≠ [] → (trim st.content).length < 50 →
                o.response = bad_request sc (lit "评论内容不能少于50字")
                  ∧ o.response.status = 400 ∧ o.save_post_calls = [] ∧ o.db = dm)
            ∧ (boundary ≠ [] → st.content ≠ [] → 50 ≤ (trim st.content).length →
                9 < st.image_files.length →
                o.response = bad_request sc (lit "最多只能上传9张图片")
                  ∧ o.response.status = 400 ∧ o.save_post_calls = [] ∧ o.db = dm)
            ∧ (boundary ≠ [] → st.content ≠ [] → 50 ≤ (trim st.content).length →
                st.image_files.length ≤ 9 →
                o.save_post_calls = [submitted_post env st]
                  ∧ o.db = (save_post dm env.now (submitted_post env st)).2
                  ∧ ((save_post dm env.now (submitted_post env st)).1 = false →
                      o.response = server_error sc (lit "保存评论失败") ∧ o.response.status = 500)
                  ∧ ((save_post dm env.now (submitted_post env st)).1 = true →
                      o.response = ok_response (create_success_response
                          (lit "\x7b\"id\":\"" ++ generate env.draw ++ lit "\"\x7d"))
                        ∧ o.response.status = 200)) :=
  ⟨fun sc env dm method target body =>
      ⟨handle_api_submit_undefined sc env dm _
          (show extract_boundary (lit "multipart/form-data; boundary=") = _ by decide),
        handle_api_submit_undefined sc env dm _
          (show extract_boundary (lit "multipart/form-data; boundary=\"") = _ by decide)⟩,
    by decide, by decide, by decide,
    fun sc env dm req boundary hb => submit_validation_order sc env dm req boundary hb⟩

/-- C11: called with an empty `content`, `parse_multipart_form` always returns, and its
result is false exactly when the value left in `content` is empty: `content` holds the body
of the last part whose headers contain `name="content"`, and is empty when there is no such
part. In particular, when the delimiter does not occur in the body the result is false,
`content` stays empty and `save_uploaded_file` is not called. -/
theorem c11_parse_result_is_content_nonempty (fs : Nat → SaveOutcome) (body boundary : Str) :
    ∃ result st,
      parse_multipart_form fs body boundary ⟨[], [], 0⟩ = .ok (result, st)
      ∧ st.content
          = (((loop_parts body (lit "--" ++ boundary) body.length 0).filterMap
              content_field).getLast?).getD []
      ∧ (result = false ↔
          ¬ ∃ c, ((loop_parts body (lit "--" ++ boundary) body.length 0).filterMap
              content_field).getLast? = some c ∧ c ≠ [])
      ∧ (¬ (lit "--" ++ boundary) <:+: body →
          result = false ∧ st.content = [] ∧ st.image_files = [] ∧ st.saves = 0) := by
  obtain ⟨st, hst⟩ := parse_multipart_form_ok fs body boundary ⟨[], [], 0⟩
  have hloop : parse_loop fs body (lit "--" ++ boundary) body.length 0 ⟨[], [], 0⟩ = .ok st := by
    simp only [parse_multipart_form] at hst
    cases hl : parse_loop fs body (lit "--" ++ boundary) body.length 0 ⟨[], [], 0⟩ with
    | error e => rw [hl] at hst; simp at hst
    | ok st1 =>
      rw [hl] at hst
      simp only [Except.ok.injEq, Prod.mk.injEq] at hst
      rw [hst.2]
  have hfold := parse_loop_eq_foldl fs body _ _ _ _ _ hloop
  have hcontent : st.content
      = (((loop_parts body (lit "--" ++ boundary) body.length 0).filterMap
          content_field).getLast?).getD [] := by
    rw [hfold, foldl_parse_part_content]
  refine ⟨!st.content.isEmpty, st, hst, hcontent, ?_, ?_⟩
  · rw [hcontent]
    cases ((loop_parts body (lit "--" ++ boundary) body.length 0).filterMap
        content_field).getLast? with
    | none => simp
    | some c => cases c <;> simp
  · intro hno
    have := parse_multipart_form_no_delimiter fs body boundary ⟨[], [], 0⟩ hno
    rw [this] at hst
    simp only [Except.ok.injEq, Prod.mk.injEq] at hst
    rw [← hst.2]
    simp

/-- C12 (fails as stated): with the boundary made of one carriage return and the text
`x--`, in which the delimiter does not occur, the delimiter matches the end of the text
together with the carriage return written after it, and the content parsed is `x`. -/
theorem c12_boundary_with_carriage_return_cuts_text :
    (lit "x--" ≠ [] ∧ ¬ (lit "--" ++ [13]) <:+: lit "x--")
      ∧ parse_multipart_form demo_env.fs
          (lit "--" ++ [13] ++ CRLF ++ lit "Content-Disposition: form-data; name=\"content\""
            ++ CRLF ++ CRLF ++ lit "x--" ++ CRLF ++ lit "--" ++ [13] ++ lit "--" ++ CRLF)
          [13] ⟨[], [], 0⟩
        = .ok (true, ⟨lit "x", [], 0⟩) := by
  decide

/-- C12 (amended): for every boundary `b` without a carriage return (the empty one too) and
every non-empty text `t` in which the delimiter does not occur, parsing the body with the
single field `content` succeeds with content equal to `t`: one trailing CRLF is removed
and nothing else is altered, whether or not `t` ends with CRLF or holds a blank line, and
no file is stored. -/
theorem c12_content_only_body_parses_verbatim (fs : Nat → SaveOutcome) (b t : Str)
    (hcr : 13 ∉ b) (hne : t ≠ []) (ht : ¬ (lit "--" ++ b) <:+: t) :
    parse_multipart_form fs
        (lit "--" ++ b ++ CRLF ++ lit "Content-Disposition: form-data; name=\"content\""
          ++ CRLF ++ CRLF ++ t ++ CRLF ++ lit "--" ++ b ++ lit "--" ++ CRLF)
        b ⟨[], [], 0⟩
      = .ok (true, ⟨t, [], 0⟩) :=
  parse_multipart_form_content_only fs b t hcr hne ht

theorem c12_content_only_body_parses_verbatim_witness :
    (13 ∉ ([] : Str) ∧ lit "a\r\n\r\nb-\r\n" ≠ [] ∧ ¬ (lit "--" ++ []) <:+: lit "a\r\n\r\nb-\r\n")
    ∧ parse_multipart_form demo_env.fs
        (lit "--" ++ [] ++ CRLF ++ lit "Content-Disposition: form-data; name=\"content\""
          ++ CRLF ++ CRLF ++ lit "a\r\n\r\nb-\r\n" ++ CRLF ++ lit "--" ++ [] ++ lit "--" ++ CRLF)
        [] ⟨[], [], 0⟩
      = .ok (true, ⟨lit "a\r\n\r\nb-\r\n", [], 0⟩) :=
  ⟨⟨by decide, by decide, by decide⟩,
    c12_content_only_body_parses_verbatim demo_env.fs [] (lit "a\r\n\r\nb-\r\n")
      (by decide) (by decide) (by decide)⟩

/-- C13: in a body made of a preamble and parts, each introduced by the delimiter and none
holding a further occurrence of it, a part without the blank line that separates headers
from content is skipped: `parse_multipart_form` returns what it returns for the body
without that part (same flag, content, stored paths and calls of `save_uploaded_file`),
which is the result of handling the other parts in order. -/
theorem c13_part_without_separator_is_skipped (fs : Nat → SaveOutcome)
    (boundary preamble : Str) (before : List Str) (part : Str) (after : List Str)
    (st : ParseState)
    (hpre : ¬ (lit "--" ++ boundary) <:+: preamble ++ (lit "--" ++ boundary).dropLast)
    (hparts : ∀ r ∈ before ++ part :: after,
      ¬ (lit "--" ++ boundary) <:+: r ++ (lit "--" ++ boundary).dropLast)
    (hpart : ¬ lit "\r\n\r\n" <:+: part) :
    parse_multipart_form fs
        (preamble ++ ((before ++ part :: after).map (lit "--" ++ boundary ++ ·)).flatten)
        boundary st
      = parse_multipart_form fs
          (preamble ++ ((before ++ after).map (lit "--" ++ boundary ++ ·)).flatten) boundary st
    ∧ parse_multipart_form fs
        (preamble ++ ((before ++ part :: after).map (lit "--" ++ boundary ++ ·)).flatten)
        boundary st
      = .ok (!((before ++ after).foldl (fun s r => parse_part fs r s) st).content.isEmpty,
          (before ++ after).foldl (fun s r => parse_part fs r s) st) := by
  have hrest : ∀ r ∈ before ++ after,
      ¬ (lit "--" ++ boundary) <:+: r ++ (lit "--" ++ boundary).dropLast := by
    intro r hr
    apply hparts
    rcases List.mem_append.mp hr with h | h
    · exact List.mem_append_left _ h
    · exact List.mem_append_right _ (List.mem_cons_of_mem _ h)
  have hfold : (before ++ part :: after).foldl (fun s r => parse_part fs r s) st
      = (before ++ after).foldl (fun s r => parse_part fs r s) st := by
    simp only [List.foldl_append, List.foldl_cons, parse_part_no_blank_line fs part _ hpart]
  rw [parse_multipart_form_regions fs boundary preamble _ st hpre hparts,
    parse_multipart_form_regions fs boundary preamble _ st hpre hrest, hfold]
  exact ⟨rfl, rfl⟩

theorem c13_part_without_separator_is_skipped_witness :
    (¬ (lit "--" ++ lit "XyZ") <:+: lit "preamble\r\n" ++ (lit "--" ++ lit "XyZ").dropLast
      ∧ ¬ lit "\r\n\r\n" <:+: lit "\r\nContent-Disposition: form-data; name=\"content\"\r\n")
    ∧ parse_multipart_form demo_env.fs
        (lit "preamble\r\n" ++ (([image_region (lit "a.png") (lit "x")]
            ++ lit "\r\nContent-Disposition: form-data; name=\"content\"\r\n"
              :: [content_region (lit "hello"), closing_region]).map
            (lit "--" ++ lit "XyZ" ++ ·)).flatten) (lit "XyZ") ⟨[], [], 0⟩
      = .ok (true, ⟨lit "hello", [lit "uploads/img_1700000000000.png"], 1⟩) :=
  have h1 : ¬ (lit "--" ++ lit "XyZ") <:+: lit "preamble\r\n" ++ (lit "--" ++ lit "XyZ").dropLast := by
    decide
  have h2 : ¬ lit "\r\n\r\n" <:+: lit "\r\nContent-Disposition: form-data; name=\"content\"\r\n" := by
    decide
  have h3 : ∀ r ∈ [image_region (lit "a.png") (lit "x")]
      ++ lit "\r\nContent-Disposition: form-data; name=\"content\"\r\n"
        :: [content_region (lit "hello"), closing_region],
      ¬ (lit "--" ++ lit "XyZ") <:+: r ++ (lit "--" ++ lit "XyZ").dropLast := by
    decide
  ⟨⟨h1, h2⟩,
    (c13_part_without_separator_is_skipped demo_env.fs (lit "XyZ") (lit "preamble\r\n")
      [image_region (lit "a.png") (lit "x")]
      (lit "\r\nContent-Disposition: form-data; name=\"content\"\r\n")
      [content_region (lit "hello"), closing_region] ⟨[], [], 0⟩ h1 h3 h2).2.trans (by decide)⟩

/-- C14: `generate` returns the word of the 48-word vocabulary at the drawn index followed
by the decimal digits of the drawn number `n`, `1 ≤ n ≤ 999`: lowercase ASCII letters, then
1 to 3 digits without a leading zero that write `n`. The id has at most 8 bytes and so
passes the `VARCHAR(16)` check of the id column. -/
theorem c14_generate_word_then_number (d : IdDraw) :
    words.length = 48
      ∧ ∃ word digits, words[d.word_index]? = some word
        ∧ digits = to_string d.number
        ∧ generate d = word ++ digits
        ∧ (∀ c ∈ word, 97 ≤ c ∧ c ≤ 122) ∧ 4 ≤ word.length ∧ word.length ≤ 5
        ∧ 1 ≤ digits.length ∧ digits.length ≤ 3
        ∧ (∀ c ∈ digits, 48 ≤ c ∧ c ≤ 57)
        ∧ digits.head? ≠ some 48
        ∧ (dec_value digits : Int) = d.number
        ∧ (generate d).length ≤ 8
        ∧ ¬ (generate d).length > 16 := by
  have hlen : words.length = 48 := by decide
  refine ⟨hlen, ?_⟩
  have hi : d.word_index < words.length := by rw [hlen]; exact d.word_index_lt
  have hw : words[d.word_index]? = some words[d.word_index] := List.getElem?_eq_getElem hi
  have hmem : words[d.word_index] ∈ words := List.getElem_mem hi
  obtain ⟨hw1, hw2, hw3⟩ := words_lowercase _ hmem
  obtain ⟨m, hm⟩ : ∃ m : Nat, d.number = (m : Int) :=
    ⟨d.number.toNat, (Int.toNat_of_nonneg (by have := d.number_ge; omega)).symm⟩
  have hm1 : 1 ≤ m := by have := d.number_ge; omega
  have hm2 : m < 1000 := by have := d.number_le; omega
  obtain ⟨g1, g2, g3, g4, g5⟩ := dec_digits_small m hm2 hm1
  have hgen : generate d = words[d.word_index] ++ to_string d.number := by
    unfold generate
    rw [List.getD_eq_getElem?_getD, hw]
    rfl
  have hts : to_string d.number = dec_digits (m + 1) m := by rw [hm, to_string_of_nat]
  have hl : (generate d).length ≤ 8 := by
    rw [hgen, hts, List.length_append]
    omega
  refine ⟨words[d.word_index], to_string d.number, hw, rfl, hgen, hw3, hw1, hw2, ?_, ?_, ?_,
    ?_, ?_, hl, by omega⟩
  · rw [hts]; exact g1
  · rw [hts]; exact g2
  · rw [hts]; exact g3
  · rw [hts]; exact g4
  · rw [hts, g5, hm]

/-- C16 (fails as stated): for the file name `a.b/c` the extension kept is `.b/c`, so the
computed path `uploads/img_1.b/c` holds two slashes and a part of the submitted name other
than an image extension. -/
theorem c16_extension_can_hold_a_slash :
    save_uploaded_file ⟨true, 1, true⟩ (lit "x") (lit "a.b/c") = lit "uploads/img_1.b/c"
      ∧ (save_uploaded_file ⟨true, 1, true⟩ (lit "x") (lit "a.b/c")).count 47 = 2 := by
  decide

/-- C16 (amended): when the directory exists and the file opens, the path computed by
`save_uploaded_file` is `uploads/img_`, then the decimal digits of the timestamp, then the
file name from its last dot on (nothing when it has no dot). For a file name accepted by
`validate_image_format`, which is all `parse_multipart_form` passes on, that extension is
one of the allowed ones up to ASCII case, and the path contains exactly one slash. -/
theorem c16_upload_path_shape (o : SaveOutcome) (content filename : Str)
    (hdir : o.dir_ok = true) (hopen : o.open_ok = true) :
    save_uploaded_file o content filename
        = lit "uploads/img_" ++ to_string o.timestamp ++ file_extension filename
      ∧ file_extension filename <:+ filename
      ∧ (file_extension filename = [] ∧ 46 ∉ filename
        ∨ ∃ rest, file_extension filename = 46 :: rest ∧ 46 ∉ rest)
      ∧ (validate_image_format filename = true →
          (file_extension filename).map tolower
              ∈ [lit ".jpg", lit ".jpeg", lit ".png", lit ".gif", lit ".bmp", lit ".webp"]
            ∧ (save_uploaded_file o content filename).count 47 = 1) := by
  have hsave : save_uploaded_file o content filename
      = lit "uploads/img_" ++ to_string o.timestamp ++ file_extension filename := by
    unfold save_uploaded_file
    simp [hdir, hopen, upload_path_eq]
  obtain ⟨e1, e2⟩ := file_extension_spec filename
  refine ⟨hsave, e1, e2, ?_⟩
  intro hv
  obtain ⟨v1, v2⟩ := file_extension_of_valid filename hv
  refine ⟨v1, ?_⟩
  rw [hsave, List.count_append, List.count_append]
  have c1 : (lit "uploads/img_").count 47 = 1 := by decide
  have c2 : (to_string o.timestamp).count 47 = 0 := by
    rw [List.count_eq_zero]
    intro hm
    rcases to_string_mem _ 47 hm with h | h <;> omega
  have c3 : (file_extension filename).count 47 = 0 := List.count_eq_zero.mpr v2
  rw [c1, c2, c3]

theorem c16_upload_path_shape_witness :
    ((⟨true, 1700000000123, true⟩ : SaveOutcome).dir_ok = true
      ∧ (⟨true, 1700000000123, true⟩ : SaveOutcome).open_ok = true)
    ∧ save_uploaded_file ⟨true, 1700000000123, true⟩ (lit "x") (lit "../../etc/Cat.v2.JPeG")
        = lit "uploads/img_1700000000123.JPeG"
    ∧ (save_uploaded_file ⟨true, 1700000000123, true⟩ (lit "x")
        (lit "../../etc/Cat.v2.JPeG")).count 47 = 1 :=
  have h := c16_upload_path_shape ⟨true, 1700000000123, true⟩ (lit "x")
    (lit "../../etc/Cat.v2.JPeG") rfl rfl
  ⟨⟨rfl, rfl⟩, by decide, (h.2.2.2 (by decide)).2⟩

/-- C17 (fails as stated): a like of an existing post answers 200 with the body
`\x7b"status":"success"\x7d`, which has neither a `data` nor a `message` field, both called
directly and through `handle_request`, for either signedness of `char`. -/
theorem c17_like_success_has_status_only :
    get_post ⟨some demo_tables⟩ (lit "tiger42") ≠ none
      ∧ ∀ sc : Bool,
        (handle_api_like sc ⟨some demo_tables⟩ (lit "tiger42")).response.status = 200
        ∧ (handle_api_like sc ⟨some demo_tables⟩ (lit "tiger42")).response.body
            = lit "\x7b\"status\":\"success\"\x7d"
        ∧ ¬ lit "\"data\"" <:+:
            (handle_api_like sc ⟨some demo_tables⟩ (lit "tiger42")).response.body
        ∧ ¬ lit "\"message\"" <:+:
            (handle_api_like sc ⟨some demo_tables⟩ (lit "tiger42")).response.body
        ∧ (handle_request sc demo_env ⟨some demo_tables⟩
              ⟨Verb.post, lit "/api/like/tiger42", [], []⟩ (lit "../frontend")).map
            (fun o => o.response.body) = .ok (lit "\x7b\"status\":\"success\"\x7d") := by
  decide

/-- C17 (amended): every response body of submit (when the boundary extraction is
defined), view and like is an object whose first field is `status`. With status `error` it
has exactly one more field, `message`, holding one of the fixed texts, and the HTTP status
is 400, 404 or 500. With status `success` and HTTP status 200 it has one more field `data`
for submit (the object with the new id) and for view (the JSON of the post), and no other
field for like. -/
theorem c17_response_body_shapes (sc : Bool) (env : Env) (dm : DatabaseManager) (req : Request)
    (boundary : Str) (hb : extract_boundary req.content_type = .ok boundary) :
    (∃ o, handle_api_submit sc env dm req = .ok o
        ∧ ((o.response.status ∈ [400, 500]
            ∧ ∃ message ∈ [lit "缺少multipart boundary", lit "解析表单数据失败",
                  lit "评论内容不能少于50字", lit "最多只能上传9张图片", lit "保存评论失败"],
                o.response.body
                  = lit "\x7b\"status\":\"error\",\"message\":" ++ json_field sc message
                      ++ lit "\x7d")
          ∨ (o.response.status = 200
            ∧ o.response.body
                = lit "\x7b\"status\":\"success\",\"data\":"
                    ++ (lit "\x7b\"id\":\"" ++ generate env.draw ++ lit "\"\x7d")
                    ++ lit "\x7d")))
      ∧ (∀ id : Str,
          ((handle_api_view sc dm id).response.status ∈ [400, 404]
            ∧ ∃ message ∈ [lit "评论ID不能为空", lit "资源不存在: 评论不存在"],
                (handle_api_view sc dm id).response.body
                  = lit "\x7b\"status\":\"error\",\"message\":" ++ json_field sc message
                      ++ lit "\x7d")
          ∨ ((handle_api_view sc dm id).response.status = 200
            ∧ ∃ post, get_post (handle_api_view sc dm id).db id = some post
                ∧ (handle_api_view sc dm id).response.body
                  = lit "\x7b\"status\":\"success\",\"data\":" ++ post_json sc post
                      ++ lit "\x7d"))
      ∧ (∀ id : Str,
          ((handle_api_like sc dm id).response.status ∈ [400, 404]
            ∧ ∃ message ∈ [lit "评论ID不能为空", lit "资源不存在: 评论不存在"],
                (handle_api_like sc dm id).response.body
                  = lit "\x7b\"status\":\"error\",\"message\":" ++ json_field sc message
                      ++ lit "\x7d")
          ∨ ((handle_api_like sc dm id).response.status = 200
            ∧ (handle_api_like sc dm id).response.body = lit "\x7b\"status\":\"success\"\x7d")) := by
  refine ⟨?_, ?_, ?_⟩
  · obtain ⟨st, hst⟩ := parse_multipart_form_ok env.fs req.body boundary ⟨[], [], 0⟩
    refine ⟨_, handle_api_submit_cases sc env dm req boundary st hb hst, ?_⟩
    split
    · exact Or.inl ⟨List.mem_cons_self _ _,
        error_body_mem sc _ (lit "缺少multipart boundary") (by decide)⟩
    · split
      · exact Or.inl ⟨List.mem_cons_self _ _,
          error_body_mem sc _ (lit "解析表单数据失败") (by decide)⟩
      · split
        · exact Or.inl ⟨List.mem_cons_self _ _,
            error_body_mem sc _ (lit "评论内容不能少于50字") (by decide)⟩
        · split
          · exact Or.inl ⟨List.mem_cons_self _ _,
              error_body_mem sc _ (lit "最多只能上传9张图片") (by decide)⟩
          · split
            · exact Or.inl ⟨List.mem_cons_of_mem _ (List.mem_cons_self _ _),
                error_body_mem sc _ (lit "保存评论失败") (by decide)⟩
            · refine Or.inr ⟨rfl, ?_⟩
              exact create_success_response_of_ne_nil
                (lit "\x7b\"id\":\"" ++ generate env.draw ++ lit "\"\x7d")
                (by simp [lit, utf8_encode])
  · intro id
    unfold handle_api_view
    split
    · exact Or.inl ⟨List.mem_cons_self _ _,
        error_body_mem sc _ (lit "评论ID不能为空") (by decide)⟩
    · cases hg : get_post (increment_view_count dm id).2 id with
      | none =>
        simp only [hg]
        exact Or.inl ⟨List.mem_cons_of_mem _ (List.mem_cons_self _ _),
          error_body_mem sc _ (lit "资源不存在: 评论不存在") (by decide)⟩
      | some post =>
        simp only [hg]
        have e := create_success_response_of_ne_nil (post_json sc post) (post_json_ne_nil sc post)
        refine Or.inr ⟨rfl, post, rfl, ?_⟩
        rw [← e]
        rfl
  · intro id
    unfold handle_api_like
    split
    · exact Or.inl ⟨List.mem_cons_self _ _,
        error_body_mem sc _ (lit "评论ID不能为空") (by decide)⟩
    · cases hl : (increment_like_count dm id).1 with
      | false =>
        simp only [hl, Bool.not_false, if_true]
        exact Or.inl ⟨List.mem_cons_of_mem _ (List.mem_cons_self _ _),
          error_body_mem sc _ (lit "资源不存在: 评论不存在") (by decide)⟩
      | true =>
        simp only [hl, Bool.not_true, Bool.false_eq_true, if_false]
        exact Or.inr ⟨rfl, rfl⟩

theorem c17_response_body_shapes_witness :
    extract_boundary (lit "multipart/form-data; boundary=xyz") = .ok (lit "xyz")
      ∧ ∃ o, handle_api_submit false demo_env ⟨some demo_tables⟩
          ⟨Verb.post, lit "/api/submit", lit "multipart/form-data; boundary=xyz", []⟩ = .ok o :=
  ⟨by decide,
    (c17_response_body_shapes false demo_env ⟨some demo_tables⟩
      ⟨Verb.post, lit "/api/submit", lit "multipart/form-data; boundary=xyz", []⟩ (lit "xyz")
      (by decide)).1.imp (fun _ ho => ho.1)⟩

/-- C19: `validate_image_format` returns true exactly when the file name, with its ASCII
capital letters replaced by small letters, ends with one of `.jpg`, `.jpeg`, `.png`,
`.gif`, `.bmp`, `.webp`. Two names that agree up to ASCII case get the same answer, and the
answer depends on the last five bytes only. So `a.PNG`, `PHOTO.JpEg` and `x.txt.WEBP` are
accepted, and `a.png.txt`, `png`, `a.pn`, `a.png ` and the empty name are rejected. -/
theorem c19_validate_image_format_suffix (filename : Str) :
    (validate_image_format filename = true
        ↔ ∃ ext ∈ [lit ".jpg", lit ".jpeg", lit ".png", lit ".gif", lit ".bmp", lit ".webp"],
            ext <:+ filename.map ascii_lower)
      ∧ (∀ other : Str, other.map ascii_lower = filename.map ascii_lower →
          validate_image_format other = validate_image_format filename)
      ∧ (∀ front : Str, 5 ≤ filename.length →
          validate_image_format (front ++ filename) = validate_image_format filename)
      ∧ (lit "PHOTO.JpEg").map ascii_lower = lit "photo.jpeg"
      ∧ (lit "a-Z_09.@[\x60\x7b").map ascii_lower = lit "a-z_09.@[\x60\x7b"
      ∧ validate_image_format (lit "a.PNG") = true
      ∧ validate_image_format (lit "a.png") = true
      ∧ validate_image_format (lit "PHOTO.JpEg") = true
      ∧ validate_image_format (lit "x.txt.WEBP") = true
      ∧ validate_image_format (lit ".Gif") = true
      ∧ validate_image_format (lit "a.png.txt") = false
      ∧ validate_image_format (lit "png") = false
      ∧ validate_image_format (lit "a.pn") = false
      ∧ validate_image_format (lit "a.png ") = false
      ∧ validate_image_format [] = false := by
  have hiff : ∀ f : Str, validate_image_format f = true
      ↔ ∃ ext ∈ [lit ".jpg", lit ".jpeg", lit ".png", lit ".gif", lit ".bmp", lit ".webp"],
          ext <:+ f.map ascii_lower := by
    intro f
    rw [← map_tolower_eq]
    exact validate_image_format_iff f
  refine ⟨hiff filename, ?_, ?_, by decide, by decide, by decide, by decide, by decide,
    by decide, by decide, by decide, by decide, by decide, by decide, by decide⟩
  · intro other h
    rw [Bool.eq_iff_iff, hiff, hiff, h]
  · intro front h5
    rw [Bool.eq_iff_iff, hiff, hiff]
    constructor
    · rintro ⟨ext, hm, hs⟩
      refine ⟨ext, hm, ?_⟩
      have h1 : filename.map ascii_lower <:+ (front ++ filename).map ascii_lower := by
        rw [List.map_append]
        exact List.suffix_append _ _
      have hl := valid_extensions_length_le ext hm
      exact List.suffix_of_suffix_length_le hs h1 (by rw [List.length_map]; omega)
    · rintro ⟨ext, hm, hs⟩
      refine ⟨ext, hm, hs.trans ?_⟩
      rw [List.map_append]
      exact List.suffix_append _ _

/-- C20 (fails): for the header `multipart/form-data; boundary=` the text after `boundary=`
is empty when `front()` is read, and for a header ending in `boundary="` it is empty when
`back()` is read after the quote was removed; both calls are undefined behaviour, in
`handle_api_submit` too. The extraction is undefined exactly for the headers in which the
text after the first `boundary=` is empty or a single double quote. -/
theorem c20_boundary_extraction_reads_empty_string :
    extract_boundary (lit "multipart/form-data; boundary=") = .error .undefined_behaviour
      ∧ extract_boundary (lit "multipart/form-data; boundary=\"") = .error .undefined_behaviour
      ∧ handle_api_submit false demo_env ⟨some demo_tables⟩
          ⟨Verb.post, lit "/api/submit", lit "multipart/form-data; boundary=", []⟩
          = .error .undefined_behaviour
      ∧ ∀ content_type : Str,
          extract_boundary content_type = .error .undefined_behaviour
            ↔ ∃ boundary_pos, find content_type (lit "boundary=") 0 = some boundary_pos
                ∧ (substr_from content_type (boundary_pos + 9) = []
                  ∨ substr_from content_type (boundary_pos + 9) = [34]) :=
  ⟨by decide, by decide, by decide, extract_boundary_error_iff⟩

/-- C21: `parse_multipart_form` returns for every body and every boundary, the empty one
included. An iteration of its loop that does not leave by `break` sets `pos` to a value
that is larger by the length of the delimiter at least (2 or more) and not beyond the end of
the body; the body of the loop is entered at most `body.length()` times, whatever bound is
put on the count; and the model of the loop needs no more than `body.length()` iterations:
with any larger bound it returns the same result. -/
theorem c21_parse_multipart_form_terminates (fs : Nat → SaveOutcome) (body boundary : Str)
    (st : ParseState) :
    (∀ bound pos st1, pos < body.length →
        parse_loop fs body (lit "--" ++ boundary) (bound + 1) pos st1
          = match loop_cut body (lit "--" ++ boundary) pos with
            | none => .ok st1
            | some cut =>
              parse_loop fs body (lit "--" ++ boundary) bound cut.2
                (parse_part fs (substr body cut.1 (cut.2 - cut.1)) st1))
      ∧ (∀ pos start end_, loop_cut body (lit "--" ++ boundary) pos = some (start, end_) →
          pos < end_ ∧ pos + 2 + boundary.length ≤ end_ ∧ end_ ≤ body.length)
      ∧ (∀ bound, loop_iterations body (lit "--" ++ boundary) bound 0 ≤ body.length)
      ∧ (∀ bound, body.length ≤ bound →
          loop_iterations body (lit "--" ++ boundary) bound 0
            = loop_iterations body (lit "--" ++ boundary) body.length 0)
      ∧ ∃ st1, parse_multipart_form fs body boundary st = .ok (!st1.content.isEmpty, st1)
          ∧ ∀ bound, body.length ≤ bound →
              parse_loop fs body (lit "--" ++ boundary) bound 0 st = .ok st1 := by
  have hD := delimiter_length boundary
  have hD1 : 1 ≤ (lit "--" ++ boundary).length := by omega
  have hDl : (lit "--" ++ boundary).length = 2 + boundary.length := by
    rw [List.length_append]
    rfl
  refine ⟨fun bound pos st1 hlt => parse_loop_succ fs body _ bound pos st1 hlt, ?_, ?_, ?_, ?_⟩
  · intro pos start end_ h
    have hb := loop_cut_bounds body _ pos start end_ h
    omega
  · intro bound
    exact loop_iterations_le body _ hD1 bound 0
  · intro bound hb
    obtain ⟨k, rfl⟩ := Nat.exists_eq_add_of_le hb
    exact loop_iterations_more body _ hD1 k body.length 0 (by omega)
  · obtain ⟨st1, h⟩ := parse_loop_ok fs body (lit "--" ++ boundary) hD1 body.length 0 st
      (by omega)
    refine ⟨st1, by simp [parse_multipart_form, h], ?_⟩
    intro bound hb
    obtain ⟨k, rfl⟩ := Nat.exists_eq_add_of_le hb
    rw [parse_loop_more_fuel fs body _ hD1 k body.length 0 st (by omega), h]

/-- C22 (fails): the file name `photo.webp` is accepted by `validate_image_format` and stored
as `uploads/img_1700000000123.webp`, but the table of `mime_type` has no entry for `.webp`:
the type is `application/text`, in the response of `handle_request` too. For an accepted
name the type of the stored path starts with `image/` exactly when the extension is not
`.webp` up to ASCII case. -/
theorem c22_webp_upload_is_served_as_text :
    validate_image_format (lit "photo.webp") = true
      ∧ save_uploaded_file ⟨true, 1700000000123, true⟩ (lit "RIFF") (lit "photo.webp")
          = lit "uploads/img_1700000000123.webp"
      ∧ mime_type (lit "uploads/img_1700000000123.webp") = lit "application/text"
      ∧ starts_with (mime_type (save_uploaded_file ⟨true, 1700000000123, true⟩ (lit "RIFF")
          (lit "photo.webp"))) (lit "image/") = false
      ∧ handle_request false demo_env_upload ⟨some demo_tables⟩
            ⟨Verb.get, lit "/uploads/img_1700000000123.webp", [], []⟩ (lit "../frontend")
          = .ok ⟨mk_response 200 (lit "application/text") (lit "RIFF"),
              ⟨some demo_tables⟩, 0, []⟩
      ∧ ∀ (o : SaveOutcome) (content filename : Str),
          o.dir_ok = true → o.open_ok = true → validate_image_format filename = true →
            (starts_with (mime_type (save_uploaded_file o content filename)) (lit "image/")
                = true
              ↔ (file_extension filename).map tolower ≠ lit ".webp") := by
  refine ⟨by decide, by decide, by decide, by decide, by decide, ?_⟩
  intro o content filename hdir hopen hv
  have hsave : save_uploaded_file o content filename = upload_path o.timestamp filename := by
    simp [save_uploaded_file, hdir, hopen]
  rw [hsave, mime_type_upload_path o.timestamp filename hv]
  have hL := (file_extension_of_valid filename hv).1
  have key : ∀ L ∈ valid_extensions,
      (starts_with (mime_type L) (lit "image/") = true ↔ L ≠ lit ".webp") := by
    decide
  exact key _ hL

end CommentFree
